import Mathlib

/-!
Verification development for the gui-idle automation bot.

The development shallowly embeds three pieces of the Go sources:
  * the template matcher (`internal/engine/screen`, old and new variants),
  * the entity tracker (`app/global/entity.go`),
  * the search-state retry logic of the newer bot state machine.

Machine integers are modelled as `Int`/`Nat`; Go `uint32` arithmetic is made
explicit with `% 2 ^ 32`.  Go `/` on `int` truncates toward zero, which is
`Int.tdiv` here.  Time instants are `Int` nanoseconds and the current time is
passed explicitly to the operations that call `time.Now()`.
-/

namespace GuiIdle

/-- Go integer division (`/` on `int`), which truncates toward zero. -/
def goDiv (a b : Int) : Int := Int.tdiv a b

/-- The local helper `abs` of `app/global/entity.go`. -/
def goAbs (x : Int) : Int := if x < 0 then -x else x

/-- One pixel as the matcher sees it: the four 8-bit channels produced by
Go `c.RGBA()` followed by the `>> 8` normalisation in `getRgbAndAlpha`. -/
structure Pixel where
  r : Nat
  g : Nat
  b : Nat
  a : Nat
deriving DecidableEq

/-- Shallow model of Go `image.Image`: integer bounds (`Bounds()`) together
with a total pixel function (`At` composed with `RGBA()` and `>> 8`; Go `At`
is total, concrete image types return the zero colour outside the bounds). -/
structure Image where
  minX : Int
  minY : Int
  maxX : Int
  maxY : Int
  pix : Int → Int → Pixel

/-- Go `Bounds().Dx()`. -/
def Image.Dx (img : Image) : Int := img.maxX - img.minX

/-- Go `Bounds().Dy()`. -/
def Image.Dy (img : Image) : Int := img.maxY - img.minY

/-- Well-formedness of the model: every channel fits in 8 bits, as is the
case for the values produced by `RGBA()` followed by `>> 8`. -/
def Image.Channels8 (img : Image) : Prop :=
  ∀ x y : Int, (img.pix x y).r ≤ 255 ∧ (img.pix x y).g ≤ 255 ∧
    (img.pix x y).b ≤ 255 ∧ (img.pix x y).a ≤ 255

/-- Every pixel inside the bounds has non-zero alpha (no wildcard pixels). -/
def Image.Opaque (img : Image) : Prop :=
  ∀ x y : Int, img.minX ≤ x → x < img.maxX → img.minY ≤ y → y < img.maxY →
    (img.pix x y).a ≠ 0

/-- Go `uint32` subtraction `a - b`, wrapping modulo `2 ^ 32`. -/
def sub32 (a b : Nat) : Nat := (a + (2 ^ 32 - b % 2 ^ 32)) % 2 ^ 32

/-- Go `uint32` multiplication, wrapping modulo `2 ^ 32`. -/
def mul32 (a b : Nat) : Nat := a * b % 2 ^ 32

/-- Go `uint32` addition, wrapping modulo `2 ^ 32`. -/
def add32 (a b : Nat) : Nat := (a + b) % 2 ^ 32

/-- Go `colorSimilar` (identical in the old and the new matcher file):
the channel differences, squares and their sum are computed in `uint32`
arithmetic, then the code tests `math.Sqrt(float64(sum)) <= tolerance`.
Because the real square root is nonnegative and strictly monotone,
that test holds exactly when `0 ≤ tolerance` and `sum ≤ tolerance ^ 2`,
which is the computable square-comparison form used here. -/
def colorSimilar (r1 g1 b1 r2 g2 b2 : Nat) (tolerance : ℚ) : Bool :=
  let dr := sub32 r1 r2
  let dg := sub32 g1 g2
  let db := sub32 b1 b2
  let s := add32 (add32 (mul32 dr dr) (mul32 dg dg)) (mul32 db db)
  decide (0 ≤ tolerance ∧ (s : ℚ) ≤ tolerance * tolerance)

/-- Go `match` of the new matcher file: compare every template pixel with the
frame pixel under it, skipping template pixels with alpha 0 (wildcards).
The Go loop rejects early, which agrees with this `all` over the same range. -/
def matchAt (sImg tImg : Image) (sx sy : Int) (tolerance : ℚ) : Bool :=
  (List.range tImg.Dy.toNat).all fun ty =>
    (List.range tImg.Dx.toNat).all fun tx =>
      let t := tImg.pix (tImg.minX + (tx : Int)) (tImg.minY + (ty : Int))
      if t.a = 0 then true
      else
        let s := sImg.pix (sx + (tx : Int)) (sy + (ty : Int))
        colorSimilar s.r s.g s.b t.r t.g t.b tolerance

/-- The three-sample quick rejection of `FindAllTemplates` and
`FindAllTemplatesInROI`: top-left, centre and bottom-right template pixels
are compared against the frame, each skipped when its alpha is 0. -/
def quickCheck (sImg tImg : Image) (x y : Int) (tolerance : ℚ) : Bool :=
  let tW := tImg.Dx
  let tH := tImg.Dy
  let t0 := tImg.pix tImg.minX tImg.minY
  let t1 := tImg.pix (tImg.minX + goDiv tW 2) (tImg.minY + goDiv tH 2)
  let t2 := tImg.pix (tImg.maxX - 1) (tImg.maxY - 1)
  (if 0 < t0.a then
    let s := sImg.pix x y
    colorSimilar s.r s.g s.b t0.r t0.g t0.b tolerance
   else true) &&
  (if 0 < t1.a then
    let s := sImg.pix (x + goDiv tW 2) (y + goDiv tH 2)
    colorSimilar s.r s.g s.b t1.r t1.g t1.b tolerance
   else true) &&
  (if 0 < t2.a then
    let s := sImg.pix (x + tW - 1) (y + tH - 1)
    colorSimilar s.r s.g s.b t2.r t2.g t2.b tolerance
   else true)

/-- A candidate position is accepted when it passes the quick checks and the
full per-pixel comparison. -/
def accept (sImg tImg : Image) (x y : Int) (tolerance : ℚ) : Bool :=
  quickCheck sImg tImg x y tolerance && matchAt sImg tImg x y tolerance

/-- The inner `x` loop of `FindAllTemplates` (and of the ROI variant, which
shares it verbatim).  The loop runs `x` from a start value while `x` stays
within the row; `fuel` is the number of remaining positions.  After accepting
a match Go advances the cursor with `x += tWidth/2` followed by the loop
increment; this is modelled by a `skip` counter that suppresses examination of
the next `tWidth/2` positions.  (For a degenerate template of negative width
the Go loop would not terminate; the model skips nothing in that case.) -/
def scanRow (sImg tImg : Image) (tolerance : ℚ) (y : Int) :
    Int → Nat → Nat → List (Int × Int)
  | _, _, 0 => []
  | x, skip, Nat.succ n =>
    if 0 < skip then scanRow sImg tImg tolerance y (x + 1) (skip - 1) n
    else if accept sImg tImg x y tolerance then
      (x, y) :: scanRow sImg tImg tolerance y (x + 1) (goDiv tImg.Dx 2).toNat n
    else scanRow sImg tImg tolerance y (x + 1) 0 n

/-- The inclusive integer range `lo, lo+1, …, hi` (empty when `hi < lo`),
used to model Go `for v := lo; v <= hi; v++` loops. -/
def intRange (lo hi : Int) : List Int :=
  (List.range (hi + 1 - lo).toNat).map fun (i : Nat) => lo + (i : Int)

/-- Go `FindAllTemplates`: slide the template top-left corner over every
position of the frame in row-major order, quick-reject, fully compare, and
skip half a template width after each accepted match. -/
def FindAllTemplates (sImg tImg : Image) (tolerance : ℚ) : List (Int × Int) :=
  let tW := tImg.Dx
  let tH := tImg.Dy
  (intRange sImg.minY (sImg.maxY - tH)).flatMap fun y =>
    scanRow sImg tImg tolerance y sImg.minX 0 (sImg.maxX - tW + 1 - sImg.minX).toNat

/-- Go `image.Rectangle` (only the fields, `Min`/`Max` flattened). -/
structure Rectangle where
  minX : Int
  minY : Int
  maxX : Int
  maxY : Int
deriving DecidableEq

/-- Go `Rectangle.Empty`. -/
def Rectangle.Empty (r : Rectangle) : Bool := r.maxX ≤ r.minX || r.maxY ≤ r.minY

/-- Go `Rectangle.Dx`. -/
def Rectangle.Dx (r : Rectangle) : Int := r.maxX - r.minX

/-- Go `Rectangle.Dy`. -/
def Rectangle.Dy (r : Rectangle) : Int := r.maxY - r.minY

/-- Go `Rectangle.Intersect`: the largest rectangle contained in both, the
zero rectangle when they do not overlap. -/
def Rectangle.Intersect (r s : Rectangle) : Rectangle :=
  let t : Rectangle :=
    ⟨max r.minX s.minX, max r.minY s.minY, min r.maxX s.maxX, min r.maxY s.maxY⟩
  if t.Empty then ⟨0, 0, 0, 0⟩ else t

/-- The bounds of an image as a rectangle. -/
def Image.bounds (img : Image) : Rectangle := ⟨img.minX, img.minY, img.maxX, img.maxY⟩

/-- Go `FindAllTemplatesInROI`: full-frame search when the ROI is empty;
otherwise clip the ROI to the frame, give up (nil) when the clipped area is
empty or smaller than the template, and otherwise run the same scan
restricted to the clipped area. -/
def FindAllTemplatesInROI (sImg tImg : Image) (roi : Rectangle) (tolerance : ℚ) :
    List (Int × Int) :=
  if roi.Empty then FindAllTemplates sImg tImg tolerance
  else
    let tW := tImg.Dx
    let tH := tImg.Dy
    let searchArea := roi.Intersect sImg.bounds
    if searchArea.Empty then []
    else if searchArea.Dx < tW ∨ searchArea.Dy < tH then []
    else
      (intRange searchArea.minY (searchArea.maxY - tH)).flatMap fun y =>
        scanRow sImg tImg tolerance y searchArea.minX 0
          (searchArea.maxX - tW + 1 - searchArea.minX).toNat

/-- Go `FindTemplate` of the new matcher file: backward-compatibility wrapper
returning the first element of `FindAllTemplates`, or `(0, 0, false)`. -/
def FindTemplate (sImg tImg : Image) (tolerance : ℚ) : Int × Int × Bool :=
  match FindAllTemplates sImg tImg tolerance with
  | p :: _ => (p.1, p.2, true)
  | [] => (0, 0, false)

/-- Go `match` of the old matcher file `internal/engine/screen/vision.go`:
identical to the new one except that there is no alpha handling, every
template pixel is compared. -/
def matchNoAlpha (sImg tImg : Image) (sx sy : Int) (tolerance : ℚ) : Bool :=
  (List.range tImg.Dy.toNat).all fun ty =>
    (List.range tImg.Dx.toNat).all fun tx =>
      let t := tImg.pix (tImg.minX + (tx : Int)) (tImg.minY + (ty : Int))
      let s := sImg.pix (sx + (tx : Int)) (sy + (ty : Int))
      colorSimilar s.r s.g s.b t.r t.g t.b tolerance

/-- Acceptance test of the old `FindTemplate`: single-pixel quick rejection
against the template top-left pixel (no alpha guard), then the full
comparison without wildcard skipping. -/
def acceptOld (sImg tImg : Image) (x y : Int) (tolerance : ℚ) : Bool :=
  (let t0 := tImg.pix tImg.minX tImg.minY
   let s := sImg.pix x y
   colorSimilar s.r s.g s.b t0.r t0.g t0.b tolerance) &&
  matchNoAlpha sImg tImg x y tolerance

/-- Inner `x` loop of the old `FindTemplate`: return the first accepted
position of the row, if any (the Go loop returns as soon as it matches). -/
def scanRowOld (sImg tImg : Image) (tolerance : ℚ) (y : Int) :
    Int → Nat → Option Int
  | _, 0 => none
  | x, Nat.succ n =>
    if acceptOld sImg tImg x y tolerance then some x
    else scanRowOld sImg tImg tolerance y (x + 1) n

/-- Outer `y` loop of the old `FindTemplate`. -/
def scanRowsOld (sImg tImg : Image) (tolerance : ℚ) (nx : Nat) :
    Int → Nat → Option (Int × Int)
  | _, 0 => none
  | y, Nat.succ m =>
    match scanRowOld sImg tImg tolerance y sImg.minX nx with
    | some x => some (x, y)
    | none => scanRowsOld sImg tImg tolerance nx (y + 1) m

/-- Go `FindTemplate` of the old matcher file: reject frames smaller than the
template, then scan row-major and return the first match. -/
def FindTemplateOld (sImg tImg : Image) (tolerance : ℚ) : Int × Int × Bool :=
  if sImg.Dx < tImg.Dx || sImg.Dy < tImg.Dy then (0, 0, false)
  else
    match scanRowsOld sImg tImg tolerance
        (sImg.maxX - tImg.Dx + 1 - sImg.minX).toNat sImg.minY
        (sImg.maxY - tImg.Dy + 1 - sImg.minY).toNat with
    | some p => (p.1, p.2, true)
    | none => (0, 0, false)

/-! ### Entity tracker (`app/global/entity.go`)

Go `map[string]…` tables are modelled as association lists with unique keys:
lookup returns the first binding, insertion replaces an existing binding in
place or appends, deletion filters.  Go map iteration order is unspecified;
the model iterates in list (insertion) order, which fixes one admissible
behaviour of `findMovedEntity` and of the expiry sweep.  The Go key is the
string `priority + "_" + qx + "_" + qy`; since `strconv.Itoa` never emits an
underscore this string determines and is determined by the triple
`(priority, qx, qy)`, which is used as the key type here. -/

/-- Association-list lookup (Go map read): value of the first binding. -/
def alookup {α β : Type} [DecidableEq α] : List (α × β) → α → Option β
  | [], _ => none
  | p :: t, k => if p.1 = k then some p.2 else alookup t k

/-- Association-list insertion (Go map write): replace the first binding in
place, append when absent. -/
def ainsert {α β : Type} [DecidableEq α] : List (α × β) → α → β → List (α × β)
  | [], k, v => [(k, v)]
  | p :: t, k, v => if p.1 = k then (k, v) :: t else p :: ainsert t k v

/-- Association-list deletion (Go `delete`). -/
def aerase {α β : Type} [DecidableEq α] (l : List (α × β)) (k : α) : List (α × β) :=
  l.filter fun p => ¬(p.1 = k)

/-- Go `DetectedEntity` (`image.Point` fields flattened). -/
structure DetectedEntity where
  templateName : String
  priority : Int
  posX : Int
  posY : Int
  sizeX : Int
  sizeY : Int
deriving DecidableEq

/-- The quantised identity key: priority plus both position coordinates
integer-divided by the quantisation unit and re-multiplied. -/
abbrev EntityKey := Int × Int × Int

/-- Go `TrackedEntity`.  Click counts only ever hold nonnegative values
(created at zero, incremented), so they are modelled as `Nat`. -/
structure TrackedEntity where
  entity : DetectedEntity
  clickCount : Nat
  lastSeen : Int
  firstSeen : Int
deriving DecidableEq

/-- Go `EntityTracker` (the mutex and the debug callback carry no state). -/
structure EntityTracker where
  entities : List (EntityKey × TrackedEntity)
  blacklist : List (EntityKey × Int)
  maxClicks : Nat
  positionThresh : Int
  ttl : Int
  lastHighPriEntity : Option DetectedEntity
  roiMargin : Int
deriving DecidableEq

/-- Go `NewEntityTracker` (TTL of 2 s in nanoseconds). -/
def NewEntityTracker : EntityTracker :=
  ⟨[], [], 7, 20, 2000000000, none, 100⟩

/-- Go `entityKey`. -/
def entityKey (t : EntityTracker) (e : DetectedEntity) : EntityKey :=
  (e.priority, goDiv e.posX t.positionThresh * t.positionThresh,
    goDiv e.posY t.positionThresh * t.positionThresh)

/-- Go `findMovedEntity`: the first tracked entity with the same priority,
horizontal displacement at most 30 px, and vertical displacement
`yDiff = e.posY - d.posY` either upward (`0 < yDiff ≤ 200`, at most the
200 px cap) or downward by at most the quantisation unit. -/
def findMovedEntity (t : EntityTracker) (d : DetectedEntity) : Option EntityKey :=
  (t.entities.find? fun kv =>
    if kv.2.entity.priority ≠ d.priority then false
    else if 30 < goAbs (kv.2.entity.posX - d.posX) then false
    else
      (0 < kv.2.entity.posY - d.posY && kv.2.entity.posY - d.posY ≤ 200) ||
        (kv.2.entity.posY - d.posY < 0 &&
          -(kv.2.entity.posY - d.posY) ≤ t.positionThresh)).map
    fun kv => kv.1

/-- The first pass of Go `Update` for one detection: exact-key refresh,
moved-entity transfer, or brand-new entity.  The second component accumulates
the `seen` set. -/
def updateStep (now : Int) (acc : EntityTracker × List EntityKey)
    (d : DetectedEntity) : EntityTracker × List EntityKey :=
  let tr := acc.1
  let key := entityKey tr d
  let seen := key :: acc.2
  match alookup tr.entities key with
  | some existing =>
    ({ tr with entities :=
        ainsert tr.entities key { existing with entity := d, lastSeen := now } }, seen)
  | none =>
    match findMovedEntity tr d with
    | some matchedKey =>
      match alookup tr.entities matchedKey with
      | some oldEntity =>
        let entities' := aerase
          (ainsert tr.entities key
            ⟨d, oldEntity.clickCount, now, oldEntity.firstSeen⟩) matchedKey
        let blacklist' :=
          match alookup tr.blacklist matchedKey with
          | some ts => aerase (ainsert tr.blacklist key ts) matchedKey
          | none => tr.blacklist
        ({ tr with entities := entities', blacklist := blacklist' }, seen)
      | none => (tr, seen)
    | none =>
      ({ tr with entities := ainsert tr.entities key ⟨d, 0, now, now⟩ }, seen)

/-- The reconciliation pass of Go `Update` over all detections.  The
`none` inner branch of `updateStep` is unreachable because `findMovedEntity`
only returns keys present in the entity table. -/
def updateReconcile (now : Int) (t : EntityTracker) (detected : List DetectedEntity) :
    EntityTracker × List EntityKey :=
  detected.foldl (updateStep now) (t, [])

/-- Go `Update`: reconcile all detections, then remove every entity that was
not seen in this call and whose last-seen time is more than TTL ago. -/
def Update (now : Int) (t : EntityTracker) (detected : List DetectedEntity) :
    EntityTracker :=
  let p := updateReconcile now t detected
  { p.1 with entities :=
      p.1.entities.filter fun kv =>
        p.2.contains kv.1 || decide (now - kv.2.lastSeen ≤ p.1.ttl) }

/-- Go `IsBlacklisted`. -/
def IsBlacklisted (t : EntityTracker) (e : DetectedEntity) : Bool :=
  (alookup t.blacklist (entityKey t e)).isSome

/-- Go `RecordClick`: returns the blacklisted-after-this-click flag together
with the updated tracker. -/
def RecordClick (now : Int) (t : EntityTracker) (e : DetectedEntity) :
    Bool × EntityTracker :=
  let key := entityKey t e
  if (alookup t.blacklist key).isSome then (true, t)
  else
    let tracked :=
      match alookup t.entities key with
      | some tr => tr
      | none => ⟨e, 0, now, now⟩
    let tracked' := { tracked with clickCount := tracked.clickCount + 1 }
    let entities' := ainsert t.entities key tracked'
    if t.maxClicks ≤ tracked'.clickCount then
      (true, { t with entities := entities', blacklist := ainsert t.blacklist key now })
    else
      (false, { t with entities := entities' })

/-- Go `GetClickCount`. -/
def GetClickCount (t : EntityTracker) (e : DetectedEntity) : Nat :=
  match alookup t.entities (entityKey t e) with
  | some tracked => tracked.clickCount
  | none => 0

/-! ### Search-state retry logic (newer bot variant)

Only the data needed by the retry claim is modelled: the current state and
the per-instance retry counter of the `GlobalBot` of the newer engine file. -/

/-- Go `BotState` of the newer engine file. -/
inductive BotState where
  | Stopped
  | AutoDetect
  | Entry
  | EntryWaiting
  | InGame
  | ExitStep1
  | ExitStep2
  | SearchOpen
  | SearchSelect
  | SearchVerify
deriving DecidableEq

/-- Go constant `SearchMaxRetries`. -/
def SearchMaxRetries : Nat := 3

/-- Go constant `SearchRetryInterval` in nanoseconds (500 ms). -/
def SearchRetryInterval : Int := 500000000

/-- Go constant `WaitAfterClickNormal` in nanoseconds (1 s). -/
def WaitAfterClickNormal : Int := 1000000000

/-- The state-machine fields of Go `GlobalBot` read or written by
`handleSearchOpenState` (the retry counter only ever holds nonnegative
values, so it is a `Nat`). -/
structure GlobalBot where
  state : BotState
  searchRetryCount : Nat
deriving DecidableEq

/-- One tick of Go `handleSearchOpenState`, abstracting the screen
interaction into the Boolean outcome `found` of searching the channel-open
targets.  Capture is assumed to succeed: on a capture error the Go handler
returns early without touching any state.  The pointer click is an external
effect with no bearing on the bot state.  Returns the updated bot and the
next polling delay in nanoseconds. -/
def handleSearchOpenState (b : GlobalBot) (found : Bool) : GlobalBot × Int :=
  if found then
    ({ b with searchRetryCount := 0, state := BotState.SearchSelect },
      WaitAfterClickNormal)
  else
    let c := b.searchRetryCount + 1
    if SearchMaxRetries ≤ c then
      ({ b with searchRetryCount := 0, state := BotState.AutoDetect },
        SearchRetryInterval)
    else
      ({ b with searchRetryCount := c }, SearchRetryInterval)

/-! ### Specification-side predicates for the matcher -/

/-- The specification notion of two pixels being within `tolerance` Euclidean
RGB distance: `√((Δr)² + (Δg)² + (Δb)²) ≤ tolerance`, phrased in the
equivalent squared form over exact arithmetic. -/
def rgbWithin (s t : Pixel) (tolerance : ℚ) : Prop :=
  0 ≤ tolerance ∧
    ((s.r : ℚ) - t.r) ^ 2 + ((s.g : ℚ) - t.g) ^ 2 + ((s.b : ℚ) - t.b) ^ 2 ≤
      tolerance * tolerance

instance (s t : Pixel) (tolerance : ℚ) : Decidable (rgbWithin s t tolerance) := by
  unfold rgbWithin; infer_instance

/-- A valid top-left placement of the template inside the frame. -/
def validPos (sImg tImg : Image) (x y : Int) : Prop :=
  sImg.minX ≤ x ∧ x ≤ sImg.maxX - tImg.Dx ∧ sImg.minY ≤ y ∧ y ≤ sImg.maxY - tImg.Dy

instance (sImg tImg : Image) (x y : Int) : Decidable (validPos sImg tImg x y) := by
  unfold validPos; infer_instance

/-- The specification notion of a full match at a position: every template
pixel is within tolerance of the frame pixel under it (no transparency
involved; the claims using this restrict to templates with no transparent
pixels). -/
def specMatchAt (sImg tImg : Image) (x y : Int) (tolerance : ℚ) : Prop :=
  ∀ tx : Nat, tx < tImg.Dx.toNat → ∀ ty : Nat, ty < tImg.Dy.toNat →
    rgbWithin (sImg.pix (x + (tx : Int)) (y + (ty : Int)))
      (tImg.pix (tImg.minX + (tx : Int)) (tImg.minY + (ty : Int))) tolerance

instance (sImg tImg : Image) (x y : Int) (tolerance : ℚ) :
    Decidable (specMatchAt sImg tImg x y tolerance) := by
  unfold specMatchAt; infer_instance

/-! ### The `uint32` wraparound is benign for 8-bit channels -/

lemma mul32_sub32_sq (a b : Nat) (ha : a ≤ 255) (hb : b ≤ 255) :
    mul32 (sub32 a b) (sub32 a b) = (a - b) * (a - b) + (b - a) * (b - a) := by
  rcases le_total b a with h | h
  · have hb2 : b % 2 ^ 32 = b := Nat.mod_eq_of_lt (by omega)
    have h1 : a + (2 ^ 32 - b) = (a - b) + 2 ^ 32 := by omega
    have h2 : sub32 a b = a - b := by
      unfold sub32
      rw [hb2, h1, Nat.add_mod_right, Nat.mod_eq_of_lt (by omega)]
    have hd : a - b ≤ 255 := by omega
    have h3 : (a - b) * (a - b) < 2 ^ 32 :=
      lt_of_le_of_lt (Nat.mul_le_mul hd hd) (by norm_num)
    unfold mul32
    rw [h2, Nat.mod_eq_of_lt h3]
    have : b - a = 0 := by omega
    simp [this]
  · have hb2 : b % 2 ^ 32 = b := Nat.mod_eq_of_lt (by omega)
    rcases Nat.eq_or_lt_of_le h with h0 | h0
    · subst h0
      have : a + (2 ^ 32 - a) = 2 ^ 32 := by omega
      unfold sub32 mul32
      rw [hb2, this, Nat.mod_self]
      simp
    · set e := b - a with he
      have h1 : a + (2 ^ 32 - b) = 2 ^ 32 - e := by omega
      have h2 : sub32 a b = 2 ^ 32 - e := by
        unfold sub32
        rw [hb2, h1, Nat.mod_eq_of_lt (by omega)]
      have h3 : (2 ^ 32 - e) * (2 ^ 32 - e) = e * e + 2 ^ 32 * (2 ^ 32 - 2 * e) := by
        zify [show e ≤ 2 ^ 32 by omega, show 2 * e ≤ 2 ^ 32 by omega]
        ring
      unfold mul32
      have hd : e ≤ 255 := by omega
      rw [h2, h3, Nat.add_mul_mod_self_left,
        Nat.mod_eq_of_lt (lt_of_le_of_lt (Nat.mul_le_mul hd hd) (by norm_num))]
      have : a - b = 0 := by omega
      simp [this]

lemma mul32_sub32_le (a b : Nat) (ha : a ≤ 255) (hb : b ≤ 255) :
    mul32 (sub32 a b) (sub32 a b) ≤ 65025 := by
  rw [mul32_sub32_sq a b ha hb]
  have h1 : (a - b) * (a - b) ≤ 255 * 255 := Nat.mul_le_mul (by omega) (by omega)
  have h2 : (b - a) * (b - a) ≤ 255 * 255 := Nat.mul_le_mul (by omega) (by omega)
  rcases le_total b a with h | h
  · have : b - a = 0 := by omega
    simp [this]; omega
  · have : a - b = 0 := by omega
    simp [this]; omega

lemma cast_sq_diff (a b : Nat) :
    (((a - b) * (a - b) + (b - a) * (b - a) : ℕ) : ℚ) = ((a : ℚ) - b) ^ 2 := by
  rcases le_total b a with h | h
  · have h0 : b - a = 0 := by omega
    have h1 : ((a - b : ℕ) : ℚ) = (a : ℚ) - b := by
      push_cast [h]; ring
    push_cast [h0]
    rw [h1]; ring
  · have h0 : a - b = 0 := by omega
    have h1 : ((b - a : ℕ) : ℚ) = (b : ℚ) - a := by
      push_cast [h]; ring
    push_cast [h0]
    rw [h1]; ring

lemma colorSimilar_true_iff (r1 g1 b1 r2 g2 b2 : Nat) (tolerance : ℚ)
    (h1 : r1 ≤ 255) (h2 : g1 ≤ 255) (h3 : b1 ≤ 255)
    (h4 : r2 ≤ 255) (h5 : g2 ≤ 255) (h6 : b2 ≤ 255) :
    colorSimilar r1 g1 b1 r2 g2 b2 tolerance = true ↔
      0 ≤ tolerance ∧
        ((r1 : ℚ) - r2) ^ 2 + ((g1 : ℚ) - g2) ^ 2 + ((b1 : ℚ) - b2) ^ 2 ≤
          tolerance * tolerance := by
  have e1 := mul32_sub32_sq r1 r2 h1 h4
  have e2 := mul32_sub32_sq g1 g2 h2 h5
  have e3 := mul32_sub32_sq b1 b2 h3 h6
  have l1 := mul32_sub32_le r1 r2 h1 h4
  have l2 := mul32_sub32_le g1 g2 h2 h5
  have l3 := mul32_sub32_le b1 b2 h3 h6
  unfold colorSimilar
  rw [decide_eq_true_iff]
  have hadd1 : add32 (mul32 (sub32 r1 r2) (sub32 r1 r2)) (mul32 (sub32 g1 g2) (sub32 g1 g2)) =
      mul32 (sub32 r1 r2) (sub32 r1 r2) + mul32 (sub32 g1 g2) (sub32 g1 g2) := by
    unfold add32; exact Nat.mod_eq_of_lt (by omega)
  have hadd2 : add32 (mul32 (sub32 r1 r2) (sub32 r1 r2) + mul32 (sub32 g1 g2) (sub32 g1 g2))
      (mul32 (sub32 b1 b2) (sub32 b1 b2)) =
      mul32 (sub32 r1 r2) (sub32 r1 r2) + mul32 (sub32 g1 g2) (sub32 g1 g2) +
        mul32 (sub32 b1 b2) (sub32 b1 b2) := by
    unfold add32; exact Nat.mod_eq_of_lt (by omega)
  rw [hadd1, hadd2, e1, e2, e3, Nat.cast_add, Nat.cast_add,
    cast_sq_diff r1 r2, cast_sq_diff g1 g2, cast_sq_diff b1 b2]

/-- Pixel-level form of `colorSimilar_true_iff`. -/
lemma colorSimilar_iff_rgbWithin (s t : Pixel) (tolerance : ℚ)
    (hs1 : s.r ≤ 255) (hs2 : s.g ≤ 255) (hs3 : s.b ≤ 255)
    (ht1 : t.r ≤ 255) (ht2 : t.g ≤ 255) (ht3 : t.b ≤ 255) :
    colorSimilar s.r s.g s.b t.r t.g t.b tolerance = true ↔ rgbWithin s t tolerance :=
  colorSimilar_true_iff s.r s.g s.b t.r t.g t.b tolerance hs1 hs2 hs3 ht1 ht2 ht3

/-- C9: for channel values in 0–255 and any nonnegative tolerance,
`colorSimilar` returns true exactly when the Euclidean RGB distance over the
mathematical integers is at most the tolerance (equivalently, when the exact
sum of squared channel differences is at most `tolerance²`), even though the
differences, products and sum are computed in unsigned 32-bit arithmetic
wrapping modulo `2 ^ 32`; the comparison is total and never errors. -/
theorem colorSimilar_exact_iff (r1 g1 b1 r2 g2 b2 : Nat) (tolerance : ℚ)
    (h1 : r1 ≤ 255) (h2 : g1 ≤ 255) (h3 : b1 ≤ 255)
    (h4 : r2 ≤ 255) (h5 : g2 ≤ 255) (h6 : b2 ≤ 255) (htol : 0 ≤ tolerance) :
    colorSimilar r1 g1 b1 r2 g2 b2 tolerance = true ↔
      ((r1 : ℚ) - r2) ^ 2 + ((g1 : ℚ) - g2) ^ 2 + ((b1 : ℚ) - b2) ^ 2 ≤
        tolerance * tolerance := by
  rw [colorSimilar_true_iff r1 g1 b1 r2 g2 b2 tolerance h1 h2 h3 h4 h5 h6]
  exact and_iff_right htol

/-- Witness for C9: channel distance 255 exceeds the default tolerance 60,
so `colorSimilar` rejects (the wrapped difference `0 - 255` notwithstanding). -/
theorem colorSimilar_exact_iff_witness :
    colorSimilar 0 0 0 255 0 0 60 = false := by
  have h := colorSimilar_exact_iff 0 0 0 255 0 0 60
    (by norm_num) (by norm_num) (by norm_num) (by norm_num) (by norm_num)
    (by norm_num) (by norm_num)
  rw [← Bool.not_eq_true, h]
  norm_num

/-! ### C7: quantisation of entity keys -/

/-- C7 counterexample: positions `(19, 0)` and `(20, 0)` differ by one pixel
— well within one quantisation unit (20 px) in both axes — yet their keys
differ, because they fall in different quantisation cells. -/
theorem entityKey_jitter_counterexample :
    goAbs (19 - 20) ≤ 20 ∧ goAbs (0 - 0) ≤ 20 ∧
      entityKey NewEntityTracker ⟨"20.png", 0, 19, 0, 1, 1⟩ ≠
        entityKey NewEntityTracker ⟨"20.png", 0, 20, 0, 1, 1⟩ := by
  decide

lemma goDiv_mul_self (a u : Int) : goDiv (goDiv a u * u) u * u = goDiv a u * u := by
  by_cases hu : u = 0
  · simp [hu]
  · unfold goDiv
    rw [Int.mul_tdiv_cancel _ hu]

/-- C7 (amended): `entityKey` returns the same key for two detections of the
same priority whose positions fall in the same quantisation cell (equal
truncated quotients by the unit in both axes); in particular the key map is
idempotent: a detection placed at the quantised position of another detection
of the same priority receives the same key.  (Two positions merely within one
unit of each other can straddle a cell boundary and receive different keys.) -/
theorem entityKey_quantization_cell (t : EntityTracker) (e1 e2 : DetectedEntity)
    (hp : e1.priority = e2.priority)
    (hx : goDiv e1.posX t.positionThresh = goDiv e2.posX t.positionThresh)
    (hy : goDiv e1.posY t.positionThresh = goDiv e2.posY t.positionThresh) :
    entityKey t e1 = entityKey t e2 ∧
      ∀ q e : DetectedEntity, q.priority = e.priority →
        q.posX = goDiv e.posX t.positionThresh * t.positionThresh →
        q.posY = goDiv e.posY t.positionThresh * t.positionThresh →
        entityKey t q = entityKey t e := by
  constructor
  · unfold entityKey
    rw [hp, hx, hy]
  · intro q e hqp hqx hqy
    unfold entityKey
    rw [hqp, hqx, hqy, goDiv_mul_self, goDiv_mul_self]

/-- Witness for C7: positions `(23, 41)` and `(37, 59)` share the cell
`(20, 40)` of the default unit, so both detections receive the key
`(5, 20, 40)`. -/
theorem entityKey_quantization_cell_witness :
    entityKey NewEntityTracker ⟨"5.png", 5, 23, 41, 1, 1⟩ =
      entityKey NewEntityTracker ⟨"5.png", 5, 37, 59, 1, 1⟩ :=
  (entityKey_quantization_cell NewEntityTracker _ _ (by decide) (by decide)
    (by decide)).1

/-! ### C6: SearchOpen retry fallback -/

/-- The bot after `n` consecutive ticks of the SearchOpen handler in which no
channel-open marker was found. -/
def failedSearchOpenTicks (b : GlobalBot) : Nat → GlobalBot
  | 0 => b
  | n + 1 => (handleSearchOpenState (failedSearchOpenTicks b n) false).1

/-- C6: from a SearchOpen state with a zero retry counter, each of the first
`SearchMaxRetries - 1` failed ticks leaves the state at SearchOpen, and the
`SearchMaxRetries`-th (third) consecutive failed tick moves the state to
AutoDetect with the retry counter reset to zero. -/
theorem searchOpen_retry_fallback (b : GlobalBot)
    (hstate : b.state = BotState.SearchOpen) (hcount : b.searchRetryCount = 0) :
    (∀ k : Nat, k < SearchMaxRetries →
        (failedSearchOpenTicks b k).state = BotState.SearchOpen) ∧
      (failedSearchOpenTicks b SearchMaxRetries).state = BotState.AutoDetect ∧
      (failedSearchOpenTicks b SearchMaxRetries).searchRetryCount = 0 := by
  obtain ⟨st, c⟩ := b
  simp only at hstate hcount
  subst hstate; subst hcount
  refine ⟨?_, by decide, by decide⟩
  decide

/-- Witness for C6 at the concrete initial bot. -/
theorem searchOpen_retry_fallback_witness :
    (failedSearchOpenTicks ⟨BotState.SearchOpen, 0⟩ SearchMaxRetries).state =
      BotState.AutoDetect :=
  (searchOpen_retry_fallback ⟨BotState.SearchOpen, 0⟩ rfl rfl).2.1

/-! ### C2: transparent template pixels never affect the match set -/

lemma allCongr {α : Type} {l : List α} {f g : α → Bool}
    (h : ∀ a ∈ l, f a = g a) : l.all f = l.all g := by
  induction l with
  | nil => rfl
  | cons a l ih =>
    simp only [List.all_cons]
    rw [h a (by simp), ih fun b hb => h b (by simp [hb])]

lemma flatMapCongr {α β : Type} {l : List α} {f g : α → List β}
    (h : ∀ a ∈ l, f a = g a) : l.flatMap f = l.flatMap g := by
  induction l with
  | nil => rfl
  | cons a l ih =>
    simp only [List.flatMap_cons]
    rw [h a (by simp), ih fun b hb => h b (by simp [hb])]

/-- Agreement of two templates up to recolouring of transparent pixels. -/
def RecolorAgree (tImg tImg' : Image) : Prop :=
  tImg.minX = tImg'.minX ∧ tImg.minY = tImg'.minY ∧
  tImg.maxX = tImg'.maxX ∧ tImg.maxY = tImg'.maxY ∧
  (∀ x y : Int, (tImg.pix x y).a = (tImg'.pix x y).a) ∧
  (∀ x y : Int, (tImg.pix x y).a ≠ 0 → tImg.pix x y = tImg'.pix x y)

section Recolor

variable {sImg tImg tImg' : Image} {tolerance : ℚ}

lemma recolor_Dx (h : RecolorAgree tImg tImg') : tImg.Dx = tImg'.Dx := by
  unfold Image.Dx; rw [h.2.2.1, h.1]

lemma recolor_Dy (h : RecolorAgree tImg tImg') : tImg.Dy = tImg'.Dy := by
  unfold Image.Dy; rw [h.2.2.2.1, h.2.1]

lemma matchAt_congr (h : RecolorAgree tImg tImg') (sx sy : Int) :
    matchAt sImg tImg sx sy tolerance = matchAt sImg tImg' sx sy tolerance := by
  obtain ⟨hminX, hminY, hmaxX, hmaxY, halpha, hcolor⟩ := h
  unfold matchAt
  rw [show tImg'.Dx = tImg.Dx from (by unfold Image.Dx; rw [hmaxX, hminX]),
    show tImg'.Dy = tImg.Dy from (by unfold Image.Dy; rw [hmaxY, hminY]),
    ← hminX, ← hminY]
  refine allCongr fun ty _ => allCongr fun tx _ => ?_
  dsimp only
  by_cases h0 : (tImg.pix (tImg.minX + (tx : Int)) (tImg.minY + (ty : Int))).a = 0
  · rw [if_pos h0, if_pos (by rw [← halpha]; exact h0)]
  · rw [if_neg h0, if_neg (by rw [← halpha]; exact h0), ← hcolor _ _ h0]

lemma quickCheck_congr (h : RecolorAgree tImg tImg') (x y : Int) :
    quickCheck sImg tImg x y tolerance = quickCheck sImg tImg' x y tolerance := by
  obtain ⟨hminX, hminY, hmaxX, hmaxY, halpha, hcolor⟩ := h
  unfold quickCheck
  rw [show tImg'.Dx = tImg.Dx from (by unfold Image.Dx; rw [hmaxX, hminX]),
    show tImg'.Dy = tImg.Dy from (by unfold Image.Dy; rw [hmaxY, hminY]),
    ← hminX, ← hminY, ← hmaxX, ← hmaxY]
  dsimp only
  have step : ∀ px py sx sy : Int,
      (if 0 < (tImg.pix px py).a then
        colorSimilar (sImg.pix sx sy).r (sImg.pix sx sy).g (sImg.pix sx sy).b
          (tImg.pix px py).r (tImg.pix px py).g (tImg.pix px py).b tolerance
       else true) =
      (if 0 < (tImg'.pix px py).a then
        colorSimilar (sImg.pix sx sy).r (sImg.pix sx sy).g (sImg.pix sx sy).b
          (tImg'.pix px py).r (tImg'.pix px py).g (tImg'.pix px py).b tolerance
       else true) := by
    intro px py sx sy
    by_cases h0 : (tImg.pix px py).a = 0
    · rw [if_neg (by omega), if_neg (by rw [← halpha]; omega)]
    · rw [if_pos (by omega), if_pos (by rw [← halpha]; omega), ← hcolor _ _ h0]
  rw [step, step, step]

lemma accept_congr (h : RecolorAgree tImg tImg') (x y : Int) :
    accept sImg tImg x y tolerance = accept sImg tImg' x y tolerance := by
  unfold accept
  rw [matchAt_congr h, quickCheck_congr h]

lemma scanRow_congr (h : RecolorAgree tImg tImg') (y : Int) (n : Nat) :
    ∀ x : Int, ∀ skip : Nat,
      scanRow sImg tImg tolerance y x skip n =
        scanRow sImg tImg' tolerance y x skip n := by
  induction n with
  | zero => intro x skip; rfl
  | succ n ih =>
    intro x skip
    simp only [scanRow]
    rw [accept_congr h, ← recolor_Dx h, ih, ih, ih]

/-- C2: transparent template pixels never affect the result of
`FindAllTemplates`: two templates with the same bounds, the same alpha
channel, and the same colour on every pixel of non-zero alpha (that is,
identical except for arbitrarily recoloured fully transparent pixels)
produce the same match list on every frame and tolerance. -/
theorem findAllTemplates_transparent_irrelevant (sImg : Image) (tolerance : ℚ)
    (tImg tImg' : Image)
    (hminX : tImg.minX = tImg'.minX) (hminY : tImg.minY = tImg'.minY)
    (hmaxX : tImg.maxX = tImg'.maxX) (hmaxY : tImg.maxY = tImg'.maxY)
    (halpha : ∀ x y : Int, (tImg.pix x y).a = (tImg'.pix x y).a)
    (hcolor : ∀ x y : Int, (tImg.pix x y).a ≠ 0 → tImg.pix x y = tImg'.pix x y) :
    FindAllTemplates sImg tImg tolerance = FindAllTemplates sImg tImg' tolerance := by
  have h : RecolorAgree tImg tImg' := ⟨hminX, hminY, hmaxX, hmaxY, halpha, hcolor⟩
  unfold FindAllTemplates
  rw [← recolor_Dx h, ← recolor_Dy h]
  exact flatMapCongr fun y _ => scanRow_congr h y _ _ _

end Recolor

/-- Witness for C2: a 2×1 template whose second pixel is transparent,
recoloured arbitrarily in that pixel, yields the same matches on a concrete
3×1 frame. -/
theorem findAllTemplates_transparent_irrelevant_witness :
    FindAllTemplates ⟨0, 0, 3, 1, fun _ _ => ⟨10, 20, 30, 255⟩⟩
        ⟨0, 0, 2, 1, fun x _ => if x = 0 then ⟨10, 20, 30, 255⟩ else ⟨99, 99, 99, 0⟩⟩ 60 =
      FindAllTemplates ⟨0, 0, 3, 1, fun _ _ => ⟨10, 20, 30, 255⟩⟩
        ⟨0, 0, 2, 1, fun x _ => if x = 0 then ⟨10, 20, 30, 255⟩ else ⟨1, 2, 3, 0⟩⟩ 60 := by
  refine findAllTemplates_transparent_irrelevant _ 60 _ _ rfl rfl rfl rfl
    (fun x y => ?_) (fun x y h => ?_)
  · dsimp only
    by_cases hx : x = 0 <;> simp [hx]
  · dsimp only at h ⊢
    by_cases hx : x = 0
    · simp [hx]
    · simp [hx] at h

/-! ### C1: characterisation of `FindAllTemplates` -/

lemma intRange_mem {lo hi v : Int} : v ∈ intRange lo hi ↔ lo ≤ v ∧ v ≤ hi := by
  unfold intRange
  constructor
  · intro hv
    obtain ⟨i, hi2, hv⟩ := List.mem_map.mp hv
    rw [List.mem_range] at hi2
    subst hv
    omega
  · intro h
    exact List.mem_map.mpr ⟨(v - lo).toNat, List.mem_range.mpr (by omega), by omega⟩

lemma intRange_pairwise (lo hi : Int) : (intRange lo hi).Pairwise (· < ·) := by
  unfold intRange
  rw [List.pairwise_map]
  exact (List.pairwise_lt_range _).imp fun {a b} h => by omega

lemma scanRow_mem (sImg tImg : Image) (tolerance : ℚ) (y : Int) (n : Nat) :
    ∀ (x : Int) (skip : Nat) (p : Int × Int),
      p ∈ scanRow sImg tImg tolerance y x skip n →
        accept sImg tImg p.1 y tolerance = true ∧ p.2 = y ∧
          x + (skip : Int) ≤ p.1 ∧ p.1 < x + (n : Int) := by
  induction n with
  | zero => intro x skip p hp; simp [scanRow] at hp
  | succ n ih =>
    intro x skip p hp
    by_cases hs : 0 < skip
    · rw [scanRow, if_pos hs] at hp
      obtain ⟨h1, h2, h3, h4⟩ := ih (x + 1) (skip - 1) p hp
      refine ⟨h1, h2, by omega, by omega⟩
    · have hs0 : skip = 0 := by omega
      subst hs0
      rw [scanRow, if_neg hs] at hp
      by_cases ha : accept sImg tImg x y tolerance = true
      · rw [if_pos ha] at hp
        rcases List.mem_cons.mp hp with h | h
        · subst h
          exact ⟨ha, rfl, by omega, by omega⟩
        · obtain ⟨h1, h2, h3, h4⟩ := ih _ _ p h
          exact ⟨h1, h2, by omega, by omega⟩
      · rw [if_neg ha] at hp
        obtain ⟨h1, h2, h3, h4⟩ := ih _ _ p hp
        exact ⟨h1, h2, by omega, by omega⟩

lemma scanRow_pairwise (sImg tImg : Image) (tolerance : ℚ) (y : Int) (n : Nat) :
    ∀ (x : Int) (skip : Nat),
      (scanRow sImg tImg tolerance y x skip n).Pairwise fun p q => p.1 < q.1 := by
  induction n with
  | zero => intro x skip; simp [scanRow]
  | succ n ih =>
    intro x skip
    by_cases hs : 0 < skip
    · rw [scanRow, if_pos hs]; exact ih _ _
    · rw [scanRow, if_neg hs]
      by_cases ha : accept sImg tImg x y tolerance = true
      · rw [if_pos ha]
        refine List.Pairwise.cons (fun q hq => ?_) (ih _ _)
        have := (scanRow_mem sImg tImg tolerance y n _ _ q hq).2.2.1
        omega
      · rw [if_neg ha]; exact ih _ _

lemma scanRow_complete (sImg tImg : Image) (tolerance : ℚ) (y : Int) (n : Nat) :
    ∀ (x : Int) (skip : Nat) (c : Int),
      accept sImg tImg c y tolerance = true →
      x + (skip : Int) ≤ c → c < x + (n : Int) →
        (c, y) ∈ scanRow sImg tImg tolerance y x skip n ∨
          ∃ q : Int, (q, y) ∈ scanRow sImg tImg tolerance y x skip n ∧
            q < c ∧ c ≤ q + ((goDiv tImg.Dx 2).toNat : Int) := by
  induction n with
  | zero => intro x skip c _ h2 h3; omega
  | succ n ih =>
    intro x skip c hc h2 h3
    by_cases hs : 0 < skip
    · rw [scanRow, if_pos hs]
      exact ih (x + 1) (skip - 1) c hc (by omega) (by omega)
    · have hs0 : skip = 0 := by omega
      subst hs0
      rw [scanRow, if_neg hs]
      by_cases ha : accept sImg tImg x y tolerance = true
      · rw [if_pos ha]
        by_cases hcx : c = x
        · subst hcx; exact Or.inl (List.mem_cons_self _ _)
        · have hgt : x < c := by omega
          by_cases hnear : c ≤ x + ((goDiv tImg.Dx 2).toNat : Int)
          · exact Or.inr ⟨x, List.mem_cons_self _ _, hgt, hnear⟩
          · rcases ih (x + 1) (goDiv tImg.Dx 2).toNat c hc (by omega) (by omega) with
              h | ⟨q, hq, hq1, hq2⟩
            · exact Or.inl (List.mem_cons_of_mem _ h)
            · exact Or.inr ⟨q, List.mem_cons_of_mem _ hq, hq1, hq2⟩
      · rw [if_neg ha]
        have hcx : c ≠ x := fun h => by rw [h] at hc; exact ha hc
        rcases ih (x + 1) 0 c hc (by omega) (by omega) with h | ⟨q, hq, hq1, hq2⟩
        · exact Or.inl h
        · exact Or.inr ⟨q, hq, hq1, hq2⟩

lemma matchAt_true_iff (sImg tImg : Image) (x y : Int) (tolerance : ℚ) :
    matchAt sImg tImg x y tolerance = true ↔
      ∀ ty : Nat, ty < tImg.Dy.toNat → ∀ tx : Nat, tx < tImg.Dx.toNat →
        (tImg.pix (tImg.minX + (tx : Int)) (tImg.minY + (ty : Int))).a = 0 ∨
          colorSimilar (sImg.pix (x + (tx : Int)) (y + (ty : Int))).r
            (sImg.pix (x + (tx : Int)) (y + (ty : Int))).g
            (sImg.pix (x + (tx : Int)) (y + (ty : Int))).b
            (tImg.pix (tImg.minX + (tx : Int)) (tImg.minY + (ty : Int))).r
            (tImg.pix (tImg.minX + (tx : Int)) (tImg.minY + (ty : Int))).g
            (tImg.pix (tImg.minX + (tx : Int)) (tImg.minY + (ty : Int))).b
            tolerance = true := by
  unfold matchAt
  simp only [List.all_eq_true, List.mem_range]
  constructor
  · intro h ty hty tx htx
    have := h ty hty tx htx
    by_cases h0 : (tImg.pix (tImg.minX + (tx : Int)) (tImg.minY + (ty : Int))).a = 0
    · exact Or.inl h0
    · rw [if_neg h0] at this
      exact Or.inr this
  · intro h ty hty tx htx
    rcases h ty hty tx htx with h0 | h0
    · rw [if_pos h0]
    · by_cases ha : (tImg.pix (tImg.minX + (tx : Int)) (tImg.minY + (ty : Int))).a = 0
      · rw [if_pos ha]
      · rw [if_neg ha]; exact h0

lemma quickCheck_of_matchAt (sImg tImg : Image) (x y : Int) (tolerance : ℚ)
    (hW : 1 ≤ tImg.Dx) (hH : 1 ≤ tImg.Dy)
    (hm : matchAt sImg tImg x y tolerance = true) :
    quickCheck sImg tImg x y tolerance = true := by
  rw [matchAt_true_iff] at hm
  have hdx : 0 ≤ goDiv tImg.Dx 2 := Int.tdiv_nonneg (by omega) (by omega)
  have hdy : 0 ≤ goDiv tImg.Dy 2 := Int.tdiv_nonneg (by omega) (by omega)
  have hdx2 : goDiv tImg.Dx 2 < tImg.Dx := by
    unfold goDiv
    rw [Int.tdiv_eq_ediv (by omega) (by omega)]
    omega
  have hdy2 : goDiv tImg.Dy 2 < tImg.Dy := by
    unfold goDiv
    rw [Int.tdiv_eq_ediv (by omega) (by omega)]
    omega
  have c0 := hm 0 (by omega) 0 (by omega)
  have c1 := hm (goDiv tImg.Dy 2).toNat (by omega) (goDiv tImg.Dx 2).toNat (by omega)
  have c2 := hm (tImg.Dy - 1).toNat (by omega) (tImg.Dx - 1).toNat (by omega)
  rw [Int.toNat_of_nonneg hdx, Int.toNat_of_nonneg hdy] at c1
  rw [Int.toNat_of_nonneg (by omega : (0:Int) ≤ tImg.Dx - 1),
    Int.toNat_of_nonneg (by omega : (0:Int) ≤ tImg.Dy - 1)] at c2
  have e2x : tImg.minX + (tImg.Dx - 1) = tImg.maxX - 1 := by unfold Image.Dx; omega
  have e2y : tImg.minY + (tImg.Dy - 1) = tImg.maxY - 1 := by unfold Image.Dy; omega
  rw [e2x, e2y] at c2
  unfold quickCheck
  dsimp only
  simp only [Nat.cast_zero, add_zero, Int.cast_zero] at c0
  rw [Bool.and_eq_true, Bool.and_eq_true]
  refine ⟨⟨?_, ?_⟩, ?_⟩
  · rcases c0 with h0 | h0
    · rw [if_neg (by omega)]
    · by_cases ha : 0 < (tImg.pix tImg.minX tImg.minY).a
      · rw [if_pos ha]; exact h0
      · rw [if_neg ha]
  · rcases c1 with h0 | h0
    · rw [if_neg (by omega)]
    · by_cases ha : 0 < (tImg.pix (tImg.minX + goDiv tImg.Dx 2) (tImg.minY + goDiv tImg.Dy 2)).a
      · rw [if_pos ha]; exact h0
      · rw [if_neg ha]
  · rcases c2 with h0 | h0
    · rw [if_neg (by omega)]
    · by_cases ha : 0 < (tImg.pix (tImg.maxX - 1) (tImg.maxY - 1)).a
      · rw [if_pos ha]
        have ex : x + (tImg.Dx - 1) = x + tImg.Dx - 1 := by omega
        have ey : y + (tImg.Dy - 1) = y + tImg.Dy - 1 := by omega
        rw [ex, ey] at h0
        exact h0
      · rw [if_neg ha]

lemma matchAt_iff_spec (sImg tImg : Image) (x y : Int) (tolerance : ℚ)
    (hs : sImg.Channels8) (ht : tImg.Channels8) (hop : tImg.Opaque) :
    matchAt sImg tImg x y tolerance = true ↔ specMatchAt sImg tImg x y tolerance := by
  rw [matchAt_true_iff]
  unfold specMatchAt
  constructor
  · intro h tx htx ty hty
    rcases h ty hty tx htx with h0 | h0
    · exfalso
      refine hop (tImg.minX + (tx : Int)) (tImg.minY + (ty : Int)) (by omega) ?_
        (by omega) ?_ h0
      · have : (tx : Int) < tImg.Dx := by
          have := Int.self_le_toNat tImg.Dx
          omega
        unfold Image.Dx at this
        omega
      · have : (ty : Int) < tImg.Dy := by
          have := Int.self_le_toNat tImg.Dy
          omega
        unfold Image.Dy at this
        omega
    · rw [colorSimilar_iff_rgbWithin _ _ tolerance (hs _ _).1 (hs _ _).2.1
        (hs _ _).2.2.1 (ht _ _).1 (ht _ _).2.1 (ht _ _).2.2.1] at h0
      exact h0
  · intro h ty hty tx htx
    refine Or.inr ?_
    rw [colorSimilar_iff_rgbWithin _ _ tolerance (hs _ _).1 (hs _ _).2.1
      (hs _ _).2.2.1 (ht _ _).1 (ht _ _).2.1 (ht _ _).2.2.1]
    exact h tx htx ty hty

lemma findAllTemplates_eq (sImg tImg : Image) (tolerance : ℚ) :
    FindAllTemplates sImg tImg tolerance =
      (intRange sImg.minY (sImg.maxY - tImg.Dy)).flatMap fun y =>
        scanRow sImg tImg tolerance y sImg.minX 0
          (sImg.maxX - tImg.Dx + 1 - sImg.minX).toNat := rfl

/-- C1 counterexample: on a uniform 3×1 frame with a uniform fully opaque
2×1 template at tolerance 60, position (1, 0) is a valid placement at which
every template pixel matches the frame exactly, yet it is not returned by
`FindAllTemplates`: after accepting the match at (0, 0) the scan advances by
half the template width, so the claimed if-and-only-if characterisation of
the returned set fails. -/
theorem findAll_overlap_counterexample :
    Image.Opaque ⟨0, 0, 2, 1, fun _ _ => ⟨0, 0, 0, 255⟩⟩ ∧
      validPos ⟨0, 0, 3, 1, fun _ _ => ⟨0, 0, 0, 255⟩⟩
        ⟨0, 0, 2, 1, fun _ _ => ⟨0, 0, 0, 255⟩⟩ 1 0 ∧
      specMatchAt ⟨0, 0, 3, 1, fun _ _ => ⟨0, 0, 0, 255⟩⟩
        ⟨0, 0, 2, 1, fun _ _ => ⟨0, 0, 0, 255⟩⟩ 1 0 60 ∧
      (1, 0) ∉ FindAllTemplates ⟨0, 0, 3, 1, fun _ _ => ⟨0, 0, 0, 255⟩⟩
        ⟨0, 0, 2, 1, fun _ _ => ⟨0, 0, 0, 255⟩⟩ 60 := by
  refine ⟨fun x y _ _ _ _ => by show (255 : Nat) ≠ 0; decide, by decide, ?_, ?_⟩
  · exact of_decide_eq_true (by with_unfolding_all rfl)
  · exact of_decide_eq_true (by with_unfolding_all rfl)

/-- C1 (amended): for a frame and a template with 8-bit channels, the
template fully opaque and of positive width and height:
soundness — every position returned by `FindAllTemplates` is a valid
placement at which every template pixel is within tolerance of the frame
pixel under it; ordering — the returned positions are strictly increasing in
row-major order (top-to-bottom, left-to-right); completeness up to the
overlap skip — every valid fully matching position is either returned or
lies in the same row, at most half a template width strictly to the right of
a returned position (the cursor advance performed after an accepted match). -/
theorem findAllTemplates_sound_ordered_complete
    (sImg tImg : Image) (tolerance : ℚ)
    (hs : sImg.Channels8) (ht : tImg.Channels8) (hop : tImg.Opaque)
    (hW : 1 ≤ tImg.Dx) (hH : 1 ≤ tImg.Dy) :
    (∀ p ∈ FindAllTemplates sImg tImg tolerance,
        validPos sImg tImg p.1 p.2 ∧ specMatchAt sImg tImg p.1 p.2 tolerance) ∧
      (FindAllTemplates sImg tImg tolerance).Pairwise
        (fun p q => p.2 < q.2 ∨ (p.2 = q.2 ∧ p.1 < q.1)) ∧
      ∀ x y : Int, validPos sImg tImg x y → specMatchAt sImg tImg x y tolerance →
        (x, y) ∈ FindAllTemplates sImg tImg tolerance ∨
          ∃ q : Int, (q, y) ∈ FindAllTemplates sImg tImg tolerance ∧
            q < x ∧ x ≤ q + goDiv tImg.Dx 2 := by
  refine ⟨?_, ?_, ?_⟩
  · intro p hp
    rw [findAllTemplates_eq] at hp
    obtain ⟨y, hy, hmem⟩ := List.mem_flatMap.mp hp
    obtain ⟨hacc, hpy, hlo, hhi⟩ := scanRow_mem sImg tImg tolerance y _ _ _ p hmem
    obtain ⟨hy1, hy2⟩ := intRange_mem.mp hy
    have hxhi : p.1 ≤ sImg.maxX - tImg.Dx := by omega
    have hmatch : matchAt sImg tImg p.1 y tolerance = true := by
      unfold accept at hacc
      simp only [Bool.and_eq_true] at hacc
      exact hacc.2
    refine ⟨⟨by omega, by omega, by omega, by omega⟩, ?_⟩
    rw [hpy]
    exact (matchAt_iff_spec sImg tImg p.1 y tolerance hs ht hop).mp hmatch
  · rw [findAllTemplates_eq, List.flatMap_def, List.pairwise_flatten]
    constructor
    · intro l hl
      obtain ⟨y, _, rfl⟩ := List.mem_map.mp hl
      refine (scanRow_pairwise sImg tImg tolerance y _ _ _).imp_of_mem ?_
      intro p q hp hq hlt
      have hpy := (scanRow_mem sImg tImg tolerance y _ _ _ p hp).2.1
      have hqy := (scanRow_mem sImg tImg tolerance y _ _ _ q hq).2.1
      exact Or.inr ⟨by rw [hpy, hqy], hlt⟩
    · rw [List.pairwise_map]
      refine (intRange_pairwise _ _).imp_of_mem ?_
      intro y y' _ _ hlt p hp q hq
      have hpy := (scanRow_mem sImg tImg tolerance y _ _ _ p hp).2.1
      have hqy := (scanRow_mem sImg tImg tolerance y' _ _ _ q hq).2.1
      exact Or.inl (by rw [hpy, hqy]; exact hlt)
  · intro x y hv hm
    obtain ⟨hx1, hx2, hy1, hy2⟩ := hv
    have hmatch : matchAt sImg tImg x y tolerance = true :=
      (matchAt_iff_spec sImg tImg x y tolerance hs ht hop).mpr hm
    have hacc : accept sImg tImg x y tolerance = true := by
      unfold accept
      rw [quickCheck_of_matchAt sImg tImg x y tolerance hW hH hmatch, hmatch]
      rfl
    have hy : y ∈ intRange sImg.minY (sImg.maxY - tImg.Dy) :=
      intRange_mem.mpr ⟨hy1, hy2⟩
    have hcnt := Int.self_le_toNat (sImg.maxX - tImg.Dx + 1 - sImg.minX)
    have hdnn : ((goDiv tImg.Dx 2).toNat : Int) = goDiv tImg.Dx 2 :=
      Int.toNat_of_nonneg (Int.tdiv_nonneg (by omega) (by omega))
    rcases scanRow_complete sImg tImg tolerance y
        (sImg.maxX - tImg.Dx + 1 - sImg.minX).toNat sImg.minX 0 x hacc (by omega)
        (by omega) with h | ⟨q, hq, hq1, hq2⟩
    · exact Or.inl (by rw [findAllTemplates_eq]; exact List.mem_flatMap.mpr ⟨y, hy, h⟩)
    · refine Or.inr ⟨q, by rw [findAllTemplates_eq]; exact List.mem_flatMap.mpr ⟨y, hy, hq⟩,
        hq1, by omega⟩

/-- Witness for C1 at a concrete pair: a 1×1 frame identical to a 1×1
template; the completeness part places (0, 0) in the returned list or within
the skip distance of a returned position. -/
theorem findAllTemplates_sound_ordered_complete_witness :
    (0, 0) ∈ FindAllTemplates ⟨0, 0, 1, 1, fun _ _ => ⟨7, 7, 7, 255⟩⟩
        ⟨0, 0, 1, 1, fun _ _ => ⟨7, 7, 7, 255⟩⟩ 60 ∨
      ∃ q : Int, (q, 0) ∈ FindAllTemplates ⟨0, 0, 1, 1, fun _ _ => ⟨7, 7, 7, 255⟩⟩
          ⟨0, 0, 1, 1, fun _ _ => ⟨7, 7, 7, 255⟩⟩ 60 ∧
        q < 0 ∧ 0 ≤ q + goDiv (Image.Dx ⟨0, 0, 1, 1, fun _ _ => ⟨7, 7, 7, 255⟩⟩) 2 :=
  (findAllTemplates_sound_ordered_complete
      ⟨0, 0, 1, 1, fun _ _ => ⟨7, 7, 7, 255⟩⟩ ⟨0, 0, 1, 1, fun _ _ => ⟨7, 7, 7, 255⟩⟩ 60
      (fun _ _ => by show (7 : Nat) ≤ 255 ∧ (7 : Nat) ≤ 255 ∧ (7 : Nat) ≤ 255 ∧
        (255 : Nat) ≤ 255; decide)
      (fun _ _ => by show (7 : Nat) ≤ 255 ∧ (7 : Nat) ≤ 255 ∧ (7 : Nat) ≤ 255 ∧
        (255 : Nat) ≤ 255; decide)
      (fun _ _ _ _ _ _ => by show (255 : Nat) ≠ 0; decide)
      (by decide) (by decide)).2.2 0 0 (by decide)
    (of_decide_eq_true (by with_unfolding_all rfl))

/-! ### C10: the old and the new `FindTemplate` agree on opaque templates -/

lemma matchNoAlpha_eq_matchAt (sImg tImg : Image) (x y : Int) (tolerance : ℚ)
    (hop : tImg.Opaque) :
    matchNoAlpha sImg tImg x y tolerance = matchAt sImg tImg x y tolerance := by
  unfold matchNoAlpha matchAt
  refine allCongr fun ty hty => allCongr fun tx htx => ?_
  rw [List.mem_range] at hty htx
  unfold Image.Dx at htx
  unfold Image.Dy at hty
  have hxb : tImg.minX + (tx : Int) < tImg.maxX := by omega
  have hyb : tImg.minY + (ty : Int) < tImg.maxY := by omega
  have ha : (tImg.pix (tImg.minX + (tx : Int)) (tImg.minY + (ty : Int))).a ≠ 0 :=
    hop _ _ (by omega) hxb (by omega) hyb
  rw [if_neg ha]

lemma acceptOld_eq_accept (sImg tImg : Image) (x y : Int) (tolerance : ℚ)
    (hop : tImg.Opaque) (hW : 1 ≤ tImg.Dx) (hH : 1 ≤ tImg.Dy) :
    acceptOld sImg tImg x y tolerance = accept sImg tImg x y tolerance := by
  have h0a : 0 < (tImg.pix tImg.minX tImg.minY).a := by
    have := hop tImg.minX tImg.minY (by omega)
      (by unfold Image.Dx at hW; omega) (by omega) (by unfold Image.Dy at hH; omega)
    omega
  cases hmb : matchAt sImg tImg x y tolerance with
  | false =>
    unfold accept acceptOld
    rw [matchNoAlpha_eq_matchAt sImg tImg x y tolerance hop, hmb,
      Bool.and_false, Bool.and_false]
  | true =>
    have hq := quickCheck_of_matchAt sImg tImg x y tolerance hW hH hmb
    unfold accept acceptOld
    rw [matchNoAlpha_eq_matchAt sImg tImg x y tolerance hop, hmb,
      Bool.and_true, Bool.and_true, hq]
    unfold quickCheck at hq
    simp only [Bool.and_eq_true] at hq
    have h1 := hq.1.1
    rw [if_pos h0a] at h1
    exact h1

lemma scanRow_head_eq_old (sImg tImg : Image) (tolerance : ℚ) (y : Int)
    (hop : tImg.Opaque) (hW : 1 ≤ tImg.Dx) (hH : 1 ≤ tImg.Dy) (n : Nat) :
    ∀ x : Int,
      (scanRow sImg tImg tolerance y x 0 n).head? =
        (scanRowOld sImg tImg tolerance y x n).map fun c => (c, y) := by
  induction n with
  | zero => intro x; rfl
  | succ n ih =>
    intro x
    rw [scanRow, if_neg (by omega), scanRowOld,
      acceptOld_eq_accept sImg tImg x y tolerance hop hW hH]
    by_cases ha : accept sImg tImg x y tolerance = true
    · rw [if_pos ha, if_pos ha]
      rfl
    · rw [if_neg ha, if_neg ha]
      exact ih (x + 1)

lemma scanRowsOld_nx_zero (sImg tImg : Image) (tolerance : ℚ) (m : Nat) :
    ∀ y0 : Int, scanRowsOld sImg tImg tolerance 0 y0 m = none := by
  induction m with
  | zero => intro y0; rfl
  | succ m ih =>
    intro y0
    rw [scanRowsOld]
    have : scanRowOld sImg tImg tolerance y0 sImg.minX 0 = none := rfl
    rw [this]
    exact ih (y0 + 1)

lemma flatMap_scanRow_head (sImg tImg : Image) (tolerance : ℚ)
    (hop : tImg.Opaque) (hW : 1 ≤ tImg.Dx) (hH : 1 ≤ tImg.Dy) (nx : Nat) (m : Nat) :
    ∀ y0 : Int,
      (((List.range m).map fun (i : Nat) => y0 + (i : Int)).flatMap fun y =>
          scanRow sImg tImg tolerance y sImg.minX 0 nx).head? =
        scanRowsOld sImg tImg tolerance nx y0 m := by
  induction m with
  | zero => intro y0; rfl
  | succ m ih =>
    intro y0
    rw [List.range_succ_eq_map, List.map_cons, List.map_map, List.flatMap_cons,
      List.head?_append, scanRowsOld]
    have hshift : (List.range m).map ((fun (i : Nat) => y0 + (i : Int)) ∘ Nat.succ) =
        (List.range m).map fun (i : Nat) => (y0 + 1) + (i : Int) := by
      refine List.map_congr_left fun a _ => ?_
      simp only [Function.comp]
      push_cast
      ring
    rw [hshift]
    cases hrow : scanRowOld sImg tImg tolerance y0 sImg.minX nx with
    | some c =>
      have hh := scanRow_head_eq_old sImg tImg tolerance y0 hop hW hH nx sImg.minX
      rw [hrow] at hh
      simp only [Nat.cast_zero, add_zero]
      rw [hh]
      rfl
    | none =>
      have hh := scanRow_head_eq_old sImg tImg tolerance y0 hop hW hH nx sImg.minX
      rw [hrow] at hh
      simp only [Nat.cast_zero, add_zero]
      rw [hh]
      exact ih (y0 + 1)

lemma findAllTemplates_head_eq_old (sImg tImg : Image) (tolerance : ℚ)
    (hop : tImg.Opaque) (hW : 1 ≤ tImg.Dx) (hH : 1 ≤ tImg.Dy) :
    (FindAllTemplates sImg tImg tolerance).head? =
      scanRowsOld sImg tImg tolerance (sImg.maxX - tImg.Dx + 1 - sImg.minX).toNat
        sImg.minY (sImg.maxY - tImg.Dy + 1 - sImg.minY).toNat := by
  rw [findAllTemplates_eq]
  unfold intRange
  exact flatMap_scanRow_head sImg tImg tolerance hop hW hH _ _ sImg.minY

/-- C10: for a fully opaque template of positive dimensions, the old
`FindTemplate` of `vision.go` (single-pixel quick rejection, no alpha
handling) and the new `FindTemplate` (first element of `FindAllTemplates`,
three-sample quick rejection, wildcard skipping) return identical results:
the same found flag and, when found, the same top-left position. -/
theorem findTemplate_old_new_equiv (sImg tImg : Image) (tolerance : ℚ)
    (hop : tImg.Opaque) (hW : 1 ≤ tImg.Dx) (hH : 1 ≤ tImg.Dy) :
    FindTemplate sImg tImg tolerance = FindTemplateOld sImg tImg tolerance := by
  have hhead := findAllTemplates_head_eq_old sImg tImg tolerance hop hW hH
  unfold FindTemplate FindTemplateOld
  by_cases hsmall : sImg.Dx < tImg.Dx ∨ sImg.Dy < tImg.Dy
  · rw [if_pos (by simpa using hsmall)]
    have hnone : scanRowsOld sImg tImg tolerance
        (sImg.maxX - tImg.Dx + 1 - sImg.minX).toNat sImg.minY
        (sImg.maxY - tImg.Dy + 1 - sImg.minY).toNat = none := by
      rcases hsmall with h | h
      · have : (sImg.maxX - tImg.Dx + 1 - sImg.minX).toNat = 0 := by
          unfold Image.Dx at h ⊢; omega
        rw [this]
        exact scanRowsOld_nx_zero sImg tImg tolerance _ sImg.minY
      · have : (sImg.maxY - tImg.Dy + 1 - sImg.minY).toNat = 0 := by
          unfold Image.Dy at h ⊢; omega
        rw [this]
        rfl
    rw [hnone] at hhead
    rw [List.head?_eq_none_iff.mp hhead]
  · rw [if_neg (by simpa using hsmall)]
    cases hrows : scanRowsOld sImg tImg tolerance
        (sImg.maxX - tImg.Dx + 1 - sImg.minX).toNat sImg.minY
        (sImg.maxY - tImg.Dy + 1 - sImg.minY).toNat with
    | some p =>
      rw [hrows] at hhead
      cases hL : FindAllTemplates sImg tImg tolerance with
      | nil => rw [hL] at hhead; simp at hhead
      | cons q t =>
        rw [hL] at hhead
        simp only [List.head?_cons, Option.some.injEq] at hhead
        rw [hhead]
    | none =>
      rw [hrows] at hhead
      rw [List.head?_eq_none_iff.mp hhead]

/-- Witness for C10 at a concrete opaque pair: a 2×2 frame containing the
1×1 template with the match at (1, 1). -/
theorem findTemplate_old_new_equiv_witness :
    FindTemplate ⟨0, 0, 2, 2, fun x y => if x = 1 ∧ y = 1 then ⟨9, 9, 9, 255⟩
        else ⟨200, 200, 200, 255⟩⟩ ⟨0, 0, 1, 1, fun _ _ => ⟨9, 9, 9, 255⟩⟩ 60 =
      FindTemplateOld ⟨0, 0, 2, 2, fun x y => if x = 1 ∧ y = 1 then ⟨9, 9, 9, 255⟩
        else ⟨200, 200, 200, 255⟩⟩ ⟨0, 0, 1, 1, fun _ _ => ⟨9, 9, 9, 255⟩⟩ 60 :=
  findTemplate_old_new_equiv _ _ 60 (fun _ _ _ _ _ _ => by
    show (255 : Nat) ≠ 0; decide) (by decide) (by decide)

/-! ### C8: ROI fallback behaviour -/

/-- C8 counterexample: a non-empty ROI disjoint from the frame does not fall
back to the full-frame search — it yields no matches, while the full-frame
search finds the template. -/
theorem findAllInROI_disjoint_counterexample :
    Rectangle.Empty ⟨5, 5, 6, 6⟩ = false ∧
      FindAllTemplatesInROI ⟨0, 0, 1, 1, fun _ _ => ⟨5, 5, 5, 255⟩⟩
        ⟨0, 0, 1, 1, fun _ _ => ⟨5, 5, 5, 255⟩⟩ ⟨5, 5, 6, 6⟩ 60 = [] ∧
      FindAllTemplates ⟨0, 0, 1, 1, fun _ _ => ⟨5, 5, 5, 255⟩⟩
        ⟨0, 0, 1, 1, fun _ _ => ⟨5, 5, 5, 255⟩⟩ 60 = [(0, 0)] := by
  refine ⟨by decide, of_decide_eq_true (by with_unfolding_all rfl),
    of_decide_eq_true (by with_unfolding_all rfl)⟩

/-- C8 (amended): `FindAllTemplatesInROI` falls back to the full-frame
search exactly when the ROI rectangle is empty; a non-empty ROI whose
intersection with the frame is empty, or whose intersection is smaller than
the template in either dimension, yields no matches at all rather than the
full-frame result. -/
theorem findAllInROI_fallback_spec (sImg tImg : Image) (roi : Rectangle)
    (tolerance : ℚ) :
    (roi.Empty = true →
      FindAllTemplatesInROI sImg tImg roi tolerance =
        FindAllTemplates sImg tImg tolerance) ∧
    (roi.Empty = false →
      ((roi.Intersect sImg.bounds).Empty = true ∨
        (roi.Intersect sImg.bounds).Dx < tImg.Dx ∨
        (roi.Intersect sImg.bounds).Dy < tImg.Dy) →
      FindAllTemplatesInROI sImg tImg roi tolerance = []) := by
  constructor
  · intro h
    unfold FindAllTemplatesInROI
    rw [h, if_pos rfl]
  · intro h hdeg
    unfold FindAllTemplatesInROI
    rw [h, if_neg (by simp)]
    dsimp only
    rcases hdeg with hd | hd | hd
    · rw [hd, if_pos rfl]
    · by_cases he : (roi.Intersect sImg.bounds).Empty = true
      · rw [he, if_pos rfl]
      · rw [if_neg he, if_pos (Or.inl hd)]
    · by_cases he : (roi.Intersect sImg.bounds).Empty = true
      · rw [he, if_pos rfl]
      · rw [if_neg he, if_pos (Or.inr hd)]

/-- Witness for C8: with the empty (zero) rectangle as ROI the search on a
concrete frame equals the full-frame search. -/
theorem findAllInROI_fallback_spec_witness :
    FindAllTemplatesInROI ⟨0, 0, 1, 1, fun _ _ => ⟨5, 5, 5, 255⟩⟩
        ⟨0, 0, 1, 1, fun _ _ => ⟨5, 5, 5, 255⟩⟩ ⟨0, 0, 0, 0⟩ 60 =
      FindAllTemplates ⟨0, 0, 1, 1, fun _ _ => ⟨5, 5, 5, 255⟩⟩
        ⟨0, 0, 1, 1, fun _ _ => ⟨5, 5, 5, 255⟩⟩ 60 :=
  (findAllInROI_fallback_spec _ _ ⟨0, 0, 0, 0⟩ 60).1 (by decide)

/-! ### Association-list lemmas -/

lemma alookup_ainsert {α β : Type} [DecidableEq α] (l : List (α × β)) (k k' : α)
    (v : β) :
    alookup (ainsert l k v) k' = if k = k' then some v else alookup l k' := by
  induction l with
  | nil =>
    by_cases h : k = k' <;> simp [ainsert, alookup, h]
  | cons p t ih =>
    by_cases hp : p.1 = k
    · rw [ainsert, if_pos hp]
      by_cases h : k = k'
      · rw [alookup, if_pos h, if_pos h]
      · rw [alookup, if_neg h, if_neg h, alookup, if_neg (by rw [hp]; exact h)]
    · rw [ainsert, if_neg hp]
      by_cases h : k = k'
      · rw [alookup, if_neg (by rw [← h]; exact hp), ih, if_pos h, if_pos h]
      · rw [if_neg h, alookup, alookup]
        by_cases hpk : p.1 = k'
        · rw [if_pos hpk, if_pos hpk]
        · rw [if_neg hpk, if_neg hpk, ih, if_neg h]

lemma alookup_aerase {α β : Type} [DecidableEq α] (l : List (α × β)) (k k' : α) :
    alookup (aerase l k) k' = if k = k' then none else alookup l k' := by
  induction l with
  | nil =>
    by_cases h : k = k' <;> simp [aerase, alookup, h]
  | cons p t ih =>
    unfold aerase at ih ⊢
    rw [List.filter_cons]
    by_cases hp : p.1 = k
    · rw [if_neg (by simp [hp]), ih]
      by_cases h : k = k'
      · rw [if_pos h, if_pos h]
      · rw [if_neg h, if_neg h, alookup, if_neg (by rw [hp]; exact h)]
    · rw [if_pos (by simp [hp]), alookup]
      by_cases hpk : p.1 = k'
      · rw [if_pos hpk, alookup, if_pos hpk,
          if_neg (by intro h; rw [← h] at hpk; exact hp hpk)]
      · rw [if_neg hpk, ih, alookup, if_neg hpk]

lemma entityKey_of_thresh_eq {t1 t2 : EntityTracker} (e : DetectedEntity)
    (h : t1.positionThresh = t2.positionThresh) : entityKey t1 e = entityKey t2 e := by
  unfold entityKey
  rw [h]

/-! ### C4: blacklist monotonicity of `RecordClick` -/

/-- The tracker after `n` consecutive `RecordClick` calls, the `i`-th call at
time `τ i` on detection `d i`. -/
def recordClicks (τ : Nat → Int) (d : Nat → DetectedEntity) (t : EntityTracker) :
    Nat → EntityTracker
  | 0 => t
  | n + 1 => (RecordClick (τ n) (recordClicks τ d t n) (d n)).2

lemma recordClick_of_blacklisted (now : Int) (t : EntityTracker) (e : DetectedEntity)
    (h : IsBlacklisted t e = true) : RecordClick now t e = (true, t) := by
  unfold IsBlacklisted at h
  unfold RecordClick
  rw [if_pos h]

lemma recordClick_fields (now : Int) (t : EntityTracker) (e : DetectedEntity) :
    (RecordClick now t e).2.positionThresh = t.positionThresh ∧
      (RecordClick now t e).2.maxClicks = t.maxClicks := by
  unfold RecordClick
  by_cases h : (alookup t.blacklist (entityKey t e)).isSome = true
  · rw [if_pos h]
    exact ⟨rfl, rfl⟩
  · rw [if_neg h]
    dsimp only
    by_cases h2 : t.maxClicks ≤
        (match alookup t.entities (entityKey t e) with
          | some tr => tr
          | none => ⟨e, 0, now, now⟩).clickCount + 1
    · rw [if_pos h2]
      exact ⟨rfl, rfl⟩
    · rw [if_neg h2]
      exact ⟨rfl, rfl⟩

lemma recordClick_blacklist_mono (now : Int) (t : EntityTracker)
    (e e' : DetectedEntity) (h : IsBlacklisted t e' = true) :
    IsBlacklisted (RecordClick now t e).2 e' = true := by
  have hth := (recordClick_fields now t e).1
  unfold IsBlacklisted at h ⊢
  rw [entityKey_of_thresh_eq e' hth]
  unfold RecordClick
  by_cases hb : (alookup t.blacklist (entityKey t e)).isSome = true
  · rw [if_pos hb]
    exact h
  · rw [if_neg hb]
    dsimp only
    by_cases h2 : t.maxClicks ≤
        (match alookup t.entities (entityKey t e) with
          | some tr => tr
          | none => ⟨e, 0, now, now⟩).clickCount + 1
    · rw [if_pos h2]
      dsimp only
      rw [alookup_ainsert]
      by_cases hk : entityKey t e = entityKey t e'
      · rw [if_pos hk]
        rfl
      · rw [if_neg hk]
        exact h
    · rw [if_neg h2]
      exact h

lemma recordClick_not_blacklisted (now : Int) (t : EntityTracker) (e : DetectedEntity)
    (h : IsBlacklisted t e = false) :
    (GetClickCount (RecordClick now t e).2 e = GetClickCount t e + 1) ∧
      ((RecordClick now t e).1 = true ↔ t.maxClicks ≤ GetClickCount t e + 1) ∧
      (IsBlacklisted (RecordClick now t e).2 e = true ↔
        t.maxClicks ≤ GetClickCount t e + 1) := by
  have hth := (recordClick_fields now t e).1
  unfold IsBlacklisted at h
  have hb : ¬((alookup t.blacklist (entityKey t e)).isSome = true) := by
    rw [h]; simp
  have hcnt : (match alookup t.entities (entityKey t e) with
      | some tr => tr
      | none => (⟨e, 0, now, now⟩ : TrackedEntity)).clickCount = GetClickCount t e := by
    unfold GetClickCount
    cases alookup t.entities (entityKey t e) with
    | some tr => rfl
    | none => rfl
  constructor
  · unfold GetClickCount
    rw [entityKey_of_thresh_eq e (recordClick_fields now t e).1]
    unfold RecordClick
    rw [if_neg hb]
    dsimp only
    by_cases h2 : t.maxClicks ≤
        (match alookup t.entities (entityKey t e) with
          | some tr => tr
          | none => ⟨e, 0, now, now⟩).clickCount + 1
    · rw [if_pos h2]
      dsimp only
      rw [alookup_ainsert, if_pos rfl, hcnt]
      rfl
    · rw [if_neg h2]
      dsimp only
      rw [alookup_ainsert, if_pos rfl, hcnt]
      rfl
  constructor
  · unfold RecordClick
    rw [if_neg hb]
    dsimp only
    by_cases h2 : t.maxClicks ≤
        (match alookup t.entities (entityKey t e) with
          | some tr => tr
          | none => ⟨e, 0, now, now⟩).clickCount + 1
    · rw [if_pos h2]
      rw [hcnt] at h2
      simp [h2]
    · rw [if_neg h2]
      rw [hcnt] at h2
      simp [h2]
  · unfold IsBlacklisted
    rw [entityKey_of_thresh_eq e hth]
    unfold RecordClick
    rw [if_neg hb]
    dsimp only
    by_cases h2 : t.maxClicks ≤
        (match alookup t.entities (entityKey t e) with
          | some tr => tr
          | none => ⟨e, 0, now, now⟩).clickCount + 1
    · rw [if_pos h2]
      dsimp only
      rw [alookup_ainsert, if_pos rfl]
      rw [hcnt] at h2
      simp [h2]
    · rw [if_neg h2]
      rw [hcnt] at h2
      rw [h]
      simp [h2]

lemma getClickCount_key_congr (t : EntityTracker) (e e' : DetectedEntity)
    (h : entityKey t e = entityKey t e') : GetClickCount t e = GetClickCount t e' := by
  unfold GetClickCount
  rw [h]

lemma isBlacklisted_key_congr (t : EntityTracker) (e e' : DetectedEntity)
    (h : entityKey t e = entityKey t e') : IsBlacklisted t e = IsBlacklisted t e' := by
  unfold IsBlacklisted
  rw [h]

lemma recordClicks_fields (τ : Nat → Int) (d : Nat → DetectedEntity)
    (t0 : EntityTracker) : ∀ n : Nat,
      (recordClicks τ d t0 n).positionThresh = t0.positionThresh ∧
        (recordClicks τ d t0 n).maxClicks = t0.maxClicks := by
  intro n
  induction n with
  | zero => exact ⟨rfl, rfl⟩
  | succ n ih =>
    rw [recordClicks]
    exact ⟨(recordClick_fields _ _ _).1.trans ih.1,
      (recordClick_fields _ _ _).2.trans ih.2⟩

lemma recordClicks_key (τ : Nat → Int) (d : Nat → DetectedEntity)
    (t0 : EntityTracker) (e : DetectedEntity)
    (hd : ∀ i : Nat, entityKey t0 (d i) = entityKey t0 e) (n i : Nat) :
    entityKey (recordClicks τ d t0 n) (d i) = entityKey (recordClicks τ d t0 n) e := by
  rw [entityKey_of_thresh_eq (d i) (recordClicks_fields τ d t0 n).1,
    entityKey_of_thresh_eq e (recordClicks_fields τ d t0 n).1]
  exact hd i

lemma recordClicks_invariant (τ : Nat → Int) (d : Nat → DetectedEntity)
    (t0 : EntityTracker) (e : DetectedEntity)
    (hd : ∀ i : Nat, entityKey t0 (d i) = entityKey t0 e) : ∀ n : Nat,
      IsBlacklisted (recordClicks τ d t0 n) e = true ∨
        (n + GetClickCount t0 e ≤ GetClickCount (recordClicks τ d t0 n) e ∧
          (1 ≤ n → GetClickCount (recordClicks τ d t0 n) e < t0.maxClicks)) := by
  intro n
  induction n with
  | zero => exact Or.inr ⟨by rw [recordClicks]; omega, by omega⟩
  | succ n ih =>
    cases hbl : IsBlacklisted (recordClicks τ d t0 n) e with
    | true =>
      exact Or.inl (recordClick_blacklist_mono (τ n) (recordClicks τ d t0 n)
        (d n) e hbl)
    | false =>
      rcases ih with h | ⟨hge, _⟩
      · rw [hbl] at h
        exact absurd h (by simp)
      · have hkey : entityKey (recordClicks τ d t0 n) (d n) =
            entityKey (recordClicks τ d t0 n) e := recordClicks_key τ d t0 e hd n n
        have hkey' : entityKey (recordClicks τ d t0 (n + 1)) (d n) =
            entityKey (recordClicks τ d t0 (n + 1)) e :=
          recordClicks_key τ d t0 e hd (n + 1) n
        have hble : IsBlacklisted (recordClicks τ d t0 n) (d n) = false := by
          rw [isBlacklisted_key_congr _ (d n) e hkey]
          exact hbl
        obtain ⟨hc, _, hba⟩ :=
          recordClick_not_blacklisted (τ n) (recordClicks τ d t0 n) (d n) hble
        have hcE : GetClickCount (recordClicks τ d t0 (n + 1)) e =
            GetClickCount (recordClicks τ d t0 n) e + 1 := by
          rw [← getClickCount_key_congr _ (d n) e hkey', recordClicks, hc,
            getClickCount_key_congr _ (d n) e hkey]
        by_cases hmax : (recordClicks τ d t0 n).maxClicks ≤
            GetClickCount (recordClicks τ d t0 n) (d n) + 1
        · refine Or.inl ?_
          rw [← isBlacklisted_key_congr _ (d n) e hkey']
          exact hba.mpr hmax
        · refine Or.inr ⟨by omega, fun _ => ?_⟩
          rw [getClickCount_key_congr _ (d n) e hkey,
            (recordClicks_fields τ d t0 n).2] at hmax
          omega

/-- C4: starting from any tracker in which the common key of the clicked
detections is not blacklisted and with a positive max-clicks threshold,
after exactly `maxClicks` consecutive `RecordClick` calls on detections
mapping to that key the key is blacklisted; the `maxClicks`-th call itself
returns true; and every later call returns true immediately while leaving
the tracker — in particular the click count — completely unchanged, so the
key stays blacklisted forever. -/
theorem recordClick_blacklist_monotone (t0 : EntityTracker) (e : DetectedEntity)
    (τ : Nat → Int) (d : Nat → DetectedEntity)
    (hd : ∀ i : Nat, entityKey t0 (d i) = entityKey t0 e)
    (hM : 1 ≤ t0.maxClicks)
    (hb0 : IsBlacklisted t0 e = false) :
    IsBlacklisted (recordClicks τ d t0 t0.maxClicks) e = true ∧
      (RecordClick (τ (t0.maxClicks - 1)) (recordClicks τ d t0 (t0.maxClicks - 1))
        (d (t0.maxClicks - 1))).1 = true ∧
      ∀ m : Nat, t0.maxClicks ≤ m →
        RecordClick (τ m) (recordClicks τ d t0 m) (d m) =
            (true, recordClicks τ d t0 m) ∧
          IsBlacklisted (recordClicks τ d t0 m) e = true := by
  have hblackAll : ∀ n : Nat, t0.maxClicks ≤ n →
      IsBlacklisted (recordClicks τ d t0 n) e = true := by
    intro n
    induction n with
    | zero => intro h; omega
    | succ n ih =>
      intro h
      by_cases hn : t0.maxClicks ≤ n
      · exact recordClick_blacklist_mono (τ n) (recordClicks τ d t0 n) (d n) e (ih hn)
      · have hMn : n + 1 = t0.maxClicks := by omega
        rcases recordClicks_invariant τ d t0 e hd (n + 1) with hB | ⟨hge, hlt⟩
        · exact hB
        · exfalso
          have := hlt (by omega)
          omega
  refine ⟨hblackAll t0.maxClicks (by omega), ?_, ?_⟩
  · cases hbl : IsBlacklisted (recordClicks τ d t0 (t0.maxClicks - 1)) (d (t0.maxClicks - 1)) with
    | true =>
      rw [recordClick_of_blacklisted (τ (t0.maxClicks - 1)) _ _ hbl]
    | false =>
      obtain ⟨_, hr, _⟩ := recordClick_not_blacklisted (τ (t0.maxClicks - 1))
        (recordClicks τ d t0 (t0.maxClicks - 1)) (d (t0.maxClicks - 1)) hbl
      refine hr.mpr ?_
      rcases recordClicks_invariant τ d t0 e hd (t0.maxClicks - 1) with hB | ⟨hge, _⟩
      · rw [← isBlacklisted_key_congr _ (d (t0.maxClicks - 1)) e
          (recordClicks_key τ d t0 e hd (t0.maxClicks - 1) (t0.maxClicks - 1))] at hB
        rw [hB] at hbl
        exact absurd hbl (by simp)
      · rw [getClickCount_key_congr _ (d (t0.maxClicks - 1)) e
          (recordClicks_key τ d t0 e hd (t0.maxClicks - 1) (t0.maxClicks - 1)),
          (recordClicks_fields τ d t0 (t0.maxClicks - 1)).2]
        omega
  · intro m hm
    have hbm : IsBlacklisted (recordClicks τ d t0 m) e = true := hblackAll m hm
    have hbdm : IsBlacklisted (recordClicks τ d t0 m) (d m) = true := by
      rw [isBlacklisted_key_congr _ (d m) e (recordClicks_key τ d t0 e hd m m)]
      exact hbm
    exact ⟨recordClick_of_blacklisted (τ m) _ _ hbdm, hbm⟩

/-- Witness for C4 at the default tracker: seven clicks on one detection
blacklist its key. -/
theorem recordClick_blacklist_monotone_witness :
    IsBlacklisted
        (recordClicks (fun _ => 0) (fun _ => ⟨"20.png", 20, 100, 200, 10, 10⟩)
          NewEntityTracker NewEntityTracker.maxClicks)
        ⟨"20.png", 20, 100, 200, 10, 10⟩ = true :=
  (recordClick_blacklist_monotone NewEntityTracker ⟨"20.png", 20, 100, 200, 10, 10⟩
    (fun _ => 0) (fun _ => ⟨"20.png", 20, 100, 200, 10, 10⟩) (fun _ => rfl)
    (by decide) (by decide)).1

/-! ### C5: moved-entity reconciliation transfers state -/

/-- C5: if the tracker (with the default 20 px quantisation unit) holds
exactly one entity, recorded at priority P and position (100, 500), and
`Update` is called with a single detection at priority P and position
(105, 350) — within the 30 px horizontal threshold and moved upward by 150,
at most the 200 px cap — then after the call the entity is stored under the
new quantised key with its click count and first-seen time preserved and its
last-seen set to the call time, the old key is gone, and a blacklist entry of
the old key has been transferred to the new key. -/
theorem update_moved_entity_transfer
    (now : Int) (t0 : EntityTracker) (dOld dNew : DetectedEntity)
    (te : TrackedEntity)
    (hthresh : t0.positionThresh = 20)
    (hox : dOld.posX = 100) (hoy : dOld.posY = 500)
    (hnx : dNew.posX = 105) (hny : dNew.posY = 350)
    (hpri : dNew.priority = dOld.priority)
    (hte : te.entity = dOld)
    (hent : t0.entities = [(entityKey t0 dOld, te)]) :
    alookup (Update now t0 [dNew]).entities (entityKey t0 dNew) =
        some ⟨dNew, te.clickCount, now, te.firstSeen⟩ ∧
      alookup (Update now t0 [dNew]).entities (entityKey t0 dOld) = none ∧
      ∀ ts : Int, alookup t0.blacklist (entityKey t0 dOld) = some ts →
        alookup (Update now t0 [dNew]).blacklist (entityKey t0 dNew) = some ts ∧
          alookup (Update now t0 [dNew]).blacklist (entityKey t0 dOld) = none := by
  have hKold : entityKey t0 dOld = (dOld.priority, 100, 500) := by
    unfold entityKey
    rw [hthresh, hox, hoy, show goDiv (100 : Int) 20 * 20 = 100 from by decide,
      show goDiv (500 : Int) 20 * 20 = 500 from by decide]
  have hKnew : entityKey t0 dNew = (dOld.priority, 100, 340) := by
    unfold entityKey
    rw [hthresh, hnx, hny, hpri, show goDiv (105 : Int) 20 * 20 = 100 from by decide,
      show goDiv (350 : Int) 20 * 20 = 340 from by decide]
  have hkne : entityKey t0 dOld ≠ entityKey t0 dNew := by
    rw [hKold, hKnew]
    intro hcon
    simp [Prod.ext_iff] at hcon
  have halk : alookup t0.entities (entityKey t0 dNew) = none := by
    rw [hent]
    simp only [alookup]
    rw [if_neg hkne]
  have halmo : findMovedEntity t0 dNew = some (entityKey t0 dOld) := by
    unfold findMovedEntity
    rw [hent, List.find?_cons]
    split
    · rfl
    · rename_i heq
      rw [hte, hox, hoy, hnx, hny] at heq
      rw [if_neg (by simp [hpri])] at heq
      rw [if_neg (by decide)] at heq
      rw [show (decide ((0 : Int) < 500 - 350) && decide ((500 : Int) - 350 ≤ 200)) =
        true from by decide, Bool.true_or] at heq
      exact absurd heq (by decide)
  have hold : alookup t0.entities (entityKey t0 dOld) = some te := by
    rw [hent]
    simp [alookup]
  have hstep : updateStep now (t0, ([] : List EntityKey)) dNew =
      ({ t0 with
          entities := aerase (ainsert t0.entities (entityKey t0 dNew)
            ⟨dNew, te.clickCount, now, te.firstSeen⟩) (entityKey t0 dOld),
          blacklist := match alookup t0.blacklist (entityKey t0 dOld) with
            | some ts => aerase (ainsert t0.blacklist (entityKey t0 dNew) ts)
                (entityKey t0 dOld)
            | none => t0.blacklist },
        [entityKey t0 dNew]) := by
    unfold updateStep
    dsimp only
    rw [halk]
    dsimp only
    rw [halmo]
    dsimp only
    rw [hold]
  have hent2 : aerase (ainsert t0.entities (entityKey t0 dNew)
      ⟨dNew, te.clickCount, now, te.firstSeen⟩) (entityKey t0 dOld) =
      [(entityKey t0 dNew, ⟨dNew, te.clickCount, now, te.firstSeen⟩)] := by
    rw [hent]
    unfold ainsert
    rw [if_neg hkne]
    show aerase [(entityKey t0 dOld, te),
      (entityKey t0 dNew, ⟨dNew, te.clickCount, now, te.firstSeen⟩)]
      (entityKey t0 dOld) = _
    unfold aerase
    rw [List.filter_cons, List.filter_cons, List.filter_nil,
      if_neg (by simp), if_pos (by simp [Ne.symm hkne])]
  have hUent : (Update now t0 [dNew]).entities =
      [(entityKey t0 dNew, ⟨dNew, te.clickCount, now, te.firstSeen⟩)] := by
    unfold Update updateReconcile
    rw [List.foldl_cons, List.foldl_nil, hstep]
    dsimp only
    rw [hent2, List.filter_cons, if_pos (by simp), List.filter_nil]
  refine ⟨?_, ?_, ?_⟩
  · rw [hUent]
    simp [alookup]
  · rw [hUent]
    simp [alookup, Ne.symm hkne]
  · intro ts hbl
    have hUbl : (Update now t0 [dNew]).blacklist =
        aerase (ainsert t0.blacklist (entityKey t0 dNew) ts) (entityKey t0 dOld) := by
      unfold Update updateReconcile
      rw [List.foldl_cons, List.foldl_nil, hstep]
      dsimp only
      rw [hbl]
    rw [hUbl]
    constructor
    · rw [alookup_aerase, if_neg hkne, alookup_ainsert, if_pos rfl]
    · rw [alookup_aerase, if_pos rfl]

/-- Witness for C5 at concrete values: a tracked entity with 3 clicks at
priority 7, position (100, 500), blacklisted at time 42, reconciled with a
detection at (105, 350). -/
theorem update_moved_entity_transfer_witness :
    alookup (Update 5 ⟨[((7, 100, 500), ⟨⟨"7.png", 7, 100, 500, 10, 10⟩, 3, 0, 1⟩)],
        [((7, 100, 500), 42)], 7, 20, 2000000000, none, 100⟩
        [⟨"7.png", 7, 105, 350, 10, 10⟩]).entities
      (entityKey ⟨[((7, 100, 500), ⟨⟨"7.png", 7, 100, 500, 10, 10⟩, 3, 0, 1⟩)],
        [((7, 100, 500), 42)], 7, 20, 2000000000, none, 100⟩
        ⟨"7.png", 7, 105, 350, 10, 10⟩) =
      some ⟨⟨"7.png", 7, 105, 350, 10, 10⟩, 3, 5, 1⟩ :=
  (update_moved_entity_transfer 5
    ⟨[((7, 100, 500), ⟨⟨"7.png", 7, 100, 500, 10, 10⟩, 3, 0, 1⟩)],
      [((7, 100, 500), 42)], 7, 20, 2000000000, none, 100⟩
    ⟨"7.png", 7, 100, 500, 10, 10⟩ ⟨"7.png", 7, 105, 350, 10, 10⟩
    ⟨⟨"7.png", 7, 100, 500, 10, 10⟩, 3, 0, 1⟩
    rfl rfl rfl rfl rfl rfl rfl (by decide)).1

/-! ### C3: TTL expiry in `Update` -/

/-- Unique keys, the invariant a Go map trivially maintains. -/
def KeysNodup {α β : Type} (l : List (α × β)) : Prop := (l.map Prod.fst).Nodup

instance {α β : Type} [DecidableEq α] (l : List (α × β)) :
    Decidable (KeysNodup l) := by
  unfold KeysNodup
  infer_instance

lemma keys_ainsert_mem {α β : Type} [DecidableEq α] (l : List (α × β)) (k : α)
    (v : β) : ∀ x ∈ (ainsert l k v).map Prod.fst, x = k ∨ x ∈ l.map Prod.fst := by
  induction l with
  | nil => simp [ainsert]
  | cons p t ih =>
    intro x hx
    rw [ainsert] at hx
    by_cases hp : p.1 = k
    · rw [if_pos hp] at hx
      rcases List.mem_cons.mp hx with h | h
      · exact Or.inl h
      · exact Or.inr (by simp [h])
    · rw [if_neg hp] at hx
      rcases List.mem_cons.mp hx with h | h
      · exact Or.inr (by simp [h])
      · rcases ih x h with h2 | h2
        · exact Or.inl h2
        · exact Or.inr (by simp [h2])

lemma keysNodup_ainsert {α β : Type} [DecidableEq α] (l : List (α × β)) (k : α)
    (v : β) (h : KeysNodup l) : KeysNodup (ainsert l k v) := by
  induction l with
  | nil => simp [ainsert, KeysNodup]
  | cons p t ih =>
    unfold KeysNodup at h ⊢
    rw [List.map_cons, List.nodup_cons] at h
    rw [ainsert]
    by_cases hp : p.1 = k
    · rw [if_pos hp, List.map_cons, List.nodup_cons]
      exact ⟨by rw [← hp]; exact h.1, h.2⟩
    · rw [if_neg hp, List.map_cons, List.nodup_cons]
      refine ⟨fun hmem => ?_, ih h.2⟩
      rcases keys_ainsert_mem t k v p.1 hmem with h2 | h2
      · exact hp h2
      · exact h.1 h2

lemma keysNodup_aerase {α β : Type} [DecidableEq α] (l : List (α × β)) (k : α)
    (h : KeysNodup l) : KeysNodup (aerase l k) :=
  h.sublist ((List.filter_sublist l).map Prod.fst)

lemma keys_filter_mem {α β : Type} (P : α × β → Bool) (l : List (α × β)) :
    ∀ x ∈ (l.filter P).map Prod.fst, x ∈ l.map Prod.fst := fun x hx =>
  ((List.filter_sublist l).map Prod.fst).mem hx

lemma alookup_eq_none_iff {α β : Type} [DecidableEq α] (l : List (α × β)) (k : α) :
    alookup l k = none ↔ k ∉ l.map Prod.fst := by
  induction l with
  | nil => simp [alookup]
  | cons p t ih =>
    rw [alookup]
    by_cases hp : p.1 = k
    · simp [hp]
    · rw [if_neg hp, ih, List.map_cons]
      simp only [List.mem_cons]
      constructor
      · intro h hor
        rcases hor with h2 | h2
        · exact hp h2.symm
        · exact h h2
      · intro h h2
        exact h (Or.inr h2)

lemma alookup_filter {α β : Type} [DecidableEq α] (P : α × β → Bool)
    (l : List (α × β)) (h : KeysNodup l) (k : α) (v : β) :
    alookup (l.filter P) k = some v ↔ alookup l k = some v ∧ P (k, v) = true := by
  induction l with
  | nil => simp [alookup]
  | cons p t ih =>
    unfold KeysNodup at h
    rw [List.map_cons, List.nodup_cons] at h
    rw [List.filter_cons]
    by_cases hP : P p = true
    · rw [if_pos hP, alookup, alookup]
      by_cases hk : p.1 = k
      · rw [if_pos hk, if_pos hk]
        constructor
        · intro h2
          have hv : v = p.2 := by
            injection h2 with h3
            exact h3.symm
          subst hv
          refine ⟨rfl, ?_⟩
          have hpe : (k, p.2) = p := by
            rw [← hk]
          rw [hpe]
          exact hP
        · intro h2
          exact h2.1
      · rw [if_neg hk, if_neg hk]
        exact ih h.2
    · rw [if_neg hP]
      by_cases hk : p.1 = k
      · constructor
        · intro h2
          exfalso
          have hknot : k ∉ t.map Prod.fst := by
            rw [← hk]
            exact h.1
          have : alookup (t.filter P) k = none := by
            rw [alookup_eq_none_iff]
            intro hmem
            exact hknot (keys_filter_mem P t k hmem)
          rw [this] at h2
          exact Option.noConfusion h2
        · rintro ⟨h1, h2⟩
          exfalso
          rw [alookup, if_pos hk] at h1
          have hv : v = p.2 := by
            injection h1 with h3
            exact h3.symm
          subst hv
          have hpe : (k, p.2) = p := by
            rw [← hk]
          rw [hpe] at h2
          rw [h2] at hP
          exact hP rfl
      · rw [ih h.2, alookup, if_neg hk]

lemma updateStep_thresh (now : Int) (acc : EntityTracker × List EntityKey)
    (d : DetectedEntity) :
    (updateStep now acc d).1.positionThresh = acc.1.positionThresh := by
  unfold updateStep
  dsimp only
  split
  · rfl
  · split
    · split
      · rfl
      · rfl
    · rfl

lemma updateStep_ttl (now : Int) (acc : EntityTracker × List EntityKey)
    (d : DetectedEntity) : (updateStep now acc d).1.ttl = acc.1.ttl := by
  unfold updateStep
  dsimp only
  split
  · rfl
  · split
    · split
      · rfl
      · rfl
    · rfl

lemma updateStep_seen (now : Int) (acc : EntityTracker × List EntityKey)
    (d : DetectedEntity) :
    (updateStep now acc d).2 = entityKey acc.1 d :: acc.2 := by
  unfold updateStep
  dsimp only
  split
  · rfl
  · split
    · split
      · rfl
      · rfl
    · rfl

lemma updateStep_keysNodup (now : Int) (acc : EntityTracker × List EntityKey)
    (d : DetectedEntity) (h : KeysNodup acc.1.entities) :
    KeysNodup (updateStep now acc d).1.entities := by
  unfold updateStep
  dsimp only
  split
  · exact keysNodup_ainsert _ _ _ h
  · split
    · split
      · exact keysNodup_aerase _ _ (keysNodup_ainsert _ _ _ h)
      · exact h
    · exact keysNodup_ainsert _ _ _ h

lemma reconcile_fields (now : Int) (detected : List DetectedEntity) :
    ∀ acc : EntityTracker × List EntityKey,
      (detected.foldl (updateStep now) acc).1.positionThresh = acc.1.positionThresh ∧
        (detected.foldl (updateStep now) acc).1.ttl = acc.1.ttl := by
  induction detected with
  | nil => intro acc; exact ⟨rfl, rfl⟩
  | cons d rest ih =>
    intro acc
    rw [List.foldl_cons]
    exact ⟨(ih _).1.trans (updateStep_thresh now acc d),
      (ih _).2.trans (updateStep_ttl now acc d)⟩

lemma reconcile_keysNodup (now : Int) (detected : List DetectedEntity) :
    ∀ acc : EntityTracker × List EntityKey, KeysNodup acc.1.entities →
      KeysNodup (detected.foldl (updateStep now) acc).1.entities := by
  induction detected with
  | nil => intro acc h; exact h
  | cons d rest ih =>
    intro acc h
    rw [List.foldl_cons]
    exact ih _ (updateStep_keysNodup now acc d h)

lemma reconcile_seen_mono (now : Int) (detected : List DetectedEntity) :
    ∀ (acc : EntityTracker × List EntityKey) (k : EntityKey), k ∈ acc.2 →
      k ∈ (detected.foldl (updateStep now) acc).2 := by
  induction detected with
  | nil => intro acc k h; exact h
  | cons d rest ih =>
    intro acc k h
    rw [List.foldl_cons]
    refine ih _ k ?_
    rw [updateStep_seen]
    exact List.mem_cons_of_mem _ h

lemma reconcile_seen_detected (now : Int) (detected : List DetectedEntity) :
    ∀ (acc : EntityTracker × List EntityKey) (d : DetectedEntity), d ∈ detected →
      entityKey acc.1 d ∈ (detected.foldl (updateStep now) acc).2 := by
  induction detected with
  | nil => intro acc d h; exact absurd h (List.not_mem_nil d)
  | cons d0 rest ih =>
    intro acc d hd
    rw [List.foldl_cons]
    rcases List.mem_cons.mp hd with heq | hmem
    · subst heq
      refine reconcile_seen_mono now rest _ _ ?_
      rw [updateStep_seen]
      exact List.mem_cons_self _ _
    · have h2 := ih (updateStep now acc d0) d hmem
      rw [entityKey_of_thresh_eq d (updateStep_thresh now acc d0)] at h2
      exact h2

/-- C3 counterexample: a tracked entity at key (7, 100, 500) last seen at the
very time of the `Update` call (so its TTL of 2 s is not remotely exceeded),
whose key is not among the detection keys, is nevertheless removed by the
call: the single detection at (105, 350) matches it as a moved entity and
its state is transferred to the new key (7, 100, 340). -/
theorem update_moved_removal_counterexample :
    (alookup (⟨[((7, 100, 500), ⟨⟨"7.png", 7, 100, 500, 10, 10⟩, 3, 0, 0⟩)], [],
          7, 20, 2000000000, none, 100⟩ : EntityTracker).entities
        (7, 100, 500)).isSome = true ∧
      entityKey ⟨[((7, 100, 500), ⟨⟨"7.png", 7, 100, 500, 10, 10⟩, 3, 0, 0⟩)], [],
          7, 20, 2000000000, none, 100⟩ ⟨"7.png", 7, 105, 350, 10, 10⟩ ≠
        (7, 100, 500) ∧
      ((0 : Int) - 0 ≤ (2000000000 : Int)) ∧
      alookup (Update 0 ⟨[((7, 100, 500), ⟨⟨"7.png", 7, 100, 500, 10, 10⟩, 3, 0, 0⟩)],
          [], 7, 20, 2000000000, none, 100⟩
          [⟨"7.png", 7, 105, 350, 10, 10⟩]).entities (7, 100, 500) = none := by
  decide

/-- C3 (amended): in every `Update` call on a tracker with unique entity
keys, the expiry sweep that follows reconciliation removes exactly those
entities whose key was not seen in this call and whose last-seen time is
more than TTL before the call time: an entity of the reconciled table
survives into the final table iff its key was seen or it is within TTL.
Every detection key is seen, so an entity whose key appears among the
detections and which is still present after reconciliation (that is, not
consumed by moved-entity reconciliation of a later detection) is never
removed, regardless of TTL.  (Moved-entity reconciliation may remove an
entity under its old key during the reconciliation pass itself, regardless
of TTL — see the counterexample.) -/
theorem update_ttl_expiry_characterization (now : Int) (t : EntityTracker)
    (detected : List DetectedEntity) (hnd : KeysNodup t.entities) :
    (∀ (k : EntityKey) (v : TrackedEntity),
        alookup (Update now t detected).entities k = some v ↔
          alookup (updateReconcile now t detected).1.entities k = some v ∧
            (k ∈ (updateReconcile now t detected).2 ∨ now - v.lastSeen ≤ t.ttl)) ∧
      (∀ d ∈ detected, entityKey t d ∈ (updateReconcile now t detected).2) ∧
      (∀ d ∈ detected,
        (alookup (updateReconcile now t detected).1.entities (entityKey t d)).isSome =
            true →
          (alookup (Update now t detected).entities (entityKey t d)).isSome = true) := by
  have hseen : ∀ d ∈ detected, entityKey t d ∈ (updateReconcile now t detected).2 :=
    fun d hd => reconcile_seen_detected now detected (t, []) d hd
  have hnd2 : KeysNodup (updateReconcile now t detected).1.entities :=
    reconcile_keysNodup now detected (t, []) hnd
  have httl : (updateReconcile now t detected).1.ttl = t.ttl :=
    (reconcile_fields now detected (t, [])).2
  have hmain : ∀ (k : EntityKey) (v : TrackedEntity),
      alookup (Update now t detected).entities k = some v ↔
        alookup (updateReconcile now t detected).1.entities k = some v ∧
          (k ∈ (updateReconcile now t detected).2 ∨ now - v.lastSeen ≤ t.ttl) := by
    intro k v
    unfold Update
    dsimp only
    rw [alookup_filter _ _ hnd2 k v]
    refine and_congr_right fun _ => ?_
    rw [Bool.or_eq_true, decide_eq_true_iff, httl]
    refine or_congr ?_ Iff.rfl
    show (updateReconcile now t detected).2.elem k = true ↔
      k ∈ (updateReconcile now t detected).2
    exact List.elem_iff
  refine ⟨hmain, hseen, fun d hd hsome => ?_⟩
  obtain ⟨v, hv⟩ := Option.isSome_iff_exists.mp hsome
  rw [Option.isSome_iff_exists]
  exact ⟨v, (hmain (entityKey t d) v).mpr ⟨hv, Or.inl (hseen d hd)⟩⟩

/-- Witness for C3 at a concrete call: the default tracker holding one
fresh entity updated with the same detection keeps the entity. -/
theorem update_ttl_expiry_characterization_witness :
    (alookup (Update 0 ⟨[((7, 100, 500), ⟨⟨"7.png", 7, 100, 500, 10, 10⟩, 0, 0, 0⟩)],
        [], 7, 20, 2000000000, none, 100⟩
        [⟨"7.png", 7, 100, 500, 10, 10⟩]).entities
      (entityKey ⟨[((7, 100, 500), ⟨⟨"7.png", 7, 100, 500, 10, 10⟩, 0, 0, 0⟩)],
        [], 7, 20, 2000000000, none, 100⟩ ⟨"7.png", 7, 100, 500, 10, 10⟩)).isSome =
      true :=
  (update_ttl_expiry_characterization 0
      ⟨[((7, 100, 500), ⟨⟨"7.png", 7, 100, 500, 10, 10⟩, 0, 0, 0⟩)],
        [], 7, 20, 2000000000, none, 100⟩
      [⟨"7.png", 7, 100, 500, 10, 10⟩] (by decide)).2.2
    ⟨"7.png", 7, 100, 500, 10, 10⟩ (by decide) (by decide)

end GuiIdle
